import Mathlib

/-!
# MightyBoard firmware: the EEPROM module (shared/Eeprom.cc)

A shallow embedding of `namespace eeprom` of `Eeprom.cc` and theorems about it.

Modelling conventions.

* A byte (`uint8_t`) is a `Fin 256`; wider machine integers are `Nat`/`Int`, reduced
  modulo `2^w` where the source narrows them.
* The EEPROM is a map from addresses to bytes. The avr-libc primitives
  (`eeprom_read_byte`, `eeprom_write_block`, ...) act on it.
* The machine state carries, besides the EEPROM, a chronological log of the device
  writes and of the calls to the collaborators the module invokes, and the two
  SD-card streams.
* Constants and routines declared in headers that are not part of `Eeprom.cc`
  (`firmware_version`, the `eeprom_offsets`, `fullResetEEPROM`, ...) are parameters.
* `float` values are rationals: every value of the form `i + f/256` with byte `i`, `f`
  is exactly representable in a 24-bit significand, so the arithmetic of the
  fixed-point accessors is exact on them.
* `ATOMIC_BLOCK(ATOMIC_RESTORESTATE)` is transparent to the sequential semantics and
  is not represented: the model has no interrupt handlers.
-/

namespace eeprom

/-! ## Bytes, device, state -/

/-- One `uint8_t`. -/
abbrev Byte := Fin 256

/-- The EEPROM device: the byte stored at each address. -/
abbrev Eeprom := Nat → Byte

/-- Conversion of a C integer to `uint8_t`: reduction modulo 256. -/
def toUint8 (z : Int) : Byte := ⟨(z % 256).toNat, by omega⟩

/-- Observable actions of the module: device writes and collaborator calls. -/
inductive Event where
  | eeprom_write (addr : Nat) (v : Byte)
  | fullResetEEPROM
  | stepperAxisInit (hard_reset : Bool)
  | eepromResetv7
  | wdt_reset
  | startCapture (fname : List Char)
  | writeByte (v : Byte)
  | finishCapture
  | startPlayback (fname : List Char)
  | playbackNext
  | finishPlayback
  deriving DecidableEq, Repr

/-- Machine state seen by the module. -/
structure State where
  /-- Content of the EEPROM device. -/
  eeprom : Eeprom
  /-- Device writes and collaborator calls so far, oldest first. -/
  log : List Event
  /-- Bytes streamed to the capture file so far, oldest first. -/
  captured : List Byte
  /-- Bytes of the playback file not yet consumed. -/
  playback : List Byte

/-- The events a computation appended to the log, given the states before and after it. -/
def emitted (before after : State) : List Event := after.log.drop before.log.length

/-! ## avr-libc EEPROM primitives -/

/-- The avr-libc `eeprom_read_byte`. -/
def eeprom_read_byte (e : Eeprom) (addr : Nat) : Byte := e addr

/-- The avr-libc `eeprom_write_byte` on the bare device. -/
def eeprom_update (e : Eeprom) (addr : Nat) (v : Byte) : Eeprom :=
  fun a => if a = addr then v else e a

/-- The avr-libc `eeprom_read_block`: the `n` bytes starting at `src`, lowest address first. -/
def eeprom_read_block (e : Eeprom) (src : Nat) : Nat → List Byte
  | 0 => []
  | n + 1 => e src :: eeprom_read_block e (src + 1) n

/-- The avr-libc `eeprom_read_dword`: four bytes, little-endian. -/
def eeprom_read_dword (e : Eeprom) (addr : Nat) : Nat :=
  (e addr).val + 256 * (e (addr + 1)).val + 65536 * (e (addr + 2)).val
    + 16777216 * (e (addr + 3)).val

/-- The avr-libc `eeprom_write_byte`, as a state transition that logs the write. -/
def eeprom_write_byte (st : State) (addr : Nat) (v : Byte) : State :=
  { st with eeprom := eeprom_update st.eeprom addr v,
            log := st.log ++ [Event.eeprom_write addr v] }

/-- The avr-libc `eeprom_write_block`: writes the bytes of `data` at `dst`, `dst + 1`, ... -/
def eeprom_write_block (st : State) : List Byte → Nat → State
  | [], _ => st
  | b :: bs, dst => eeprom_write_block (eeprom_write_byte st dst b) bs (dst + 1)

/-- The avr-libc `wdt_reset`: the watchdog heartbeat, visible only in the log. -/
def wdt_reset (st : State) : State := { st with log := st.log ++ [Event.wdt_reset] }

/-! ## Parameters: declarations that live outside `Eeprom.cc` -/

/-- Constants of `Version.hh` and `EepromMap.hh` used by `Eeprom.cc`. -/
structure Config where
  /-- The constant `firmware_version` (a `uint16_t`). -/
  firmware_version : Nat
  /-- The offset `eeprom_offsets::VERSION_LOW`; the high byte is at the next address. -/
  VERSION_LOW : Nat
  /-- The offset `eeprom_offsets::VERSION7_UPDATE_FLAG`. -/
  VERSION7_UPDATE_FLAG : Nat
  /-- The constant `VERSION7_FLAG`. -/
  VERSION7_FLAG : Nat

/-- The effect on the EEPROM of the routines `init` calls and `Eeprom.cc` does not define. -/
structure Collaborators where
  /-- Effect of `fullResetEEPROM()` (EepromMap). -/
  fullResetEEPROM : Eeprom → Eeprom
  /-- Effect of `stepperAxisInit(hard_reset)` (StepperAxis). -/
  stepperAxisInit : Bool → Eeprom → Eeprom
  /-- Effect of `eepromResetv7()` (EepromMap). -/
  eepromResetv7 : Eeprom → Eeprom

/-- A call to a collaborator: logged, and its effect applied to the device. -/
def call (st : State) (ev : Event) (effect : Eeprom → Eeprom) : State :=
  { st with eeprom := effect st.eeprom, log := st.log ++ [ev] }

/-- The decoded Version Record: `high * 100 + low`. -/
def storedVersion (cfg : Config) (e : Eeprom) : Nat :=
  (e (cfg.VERSION_LOW + 1)).val * 100 + (e cfg.VERSION_LOW).val

/-! ## Typed getters and setters -/

/-- The source function `getEeprom8`. -/
def getEeprom8 (e : Eeprom) (location : Nat) (default_value : Byte) : Byte :=
  let data := (eeprom_read_block e location 1).getD 0 0
  if data = 0xff then default_value else data

/-- The source function `getEeprom16`: two bytes read into a little-endian `uint16_t`. -/
def getEeprom16 (e : Eeprom) (location : Nat) (default_value : Nat) : Nat :=
  let bytes := eeprom_read_block e location 2
  let data := (bytes.getD 0 0).val + 256 * (bytes.getD 1 0).val
  if data = 0xffff then default_value else data

/-- The source function `getEeprom32`. -/
def getEeprom32 (e : Eeprom) (location : Nat) (default_value : Nat) : Nat :=
  let data := eeprom_read_dword e location
  if data = 0xffffffff then default_value else data

/-- The source function `getEepromFixed16`. -/
def getEepromFixed16 (e : Eeprom) (location : Nat) (default_value : ℚ) : ℚ :=
  let data := eeprom_read_block e location 2
  let d0 := data.getD 0 0
  let d1 := data.getD 1 0
  if d0 = 0xff ∧ d1 = 0xff then default_value
  else ((d0.val : ℚ)) + ((d1.val : ℚ)) / 256

/-- C conversion of a floating value to an integer: truncation toward zero. -/
def truncate (q : ℚ) : Int := if 0 ≤ q then ⌊q⌋ else ⌈q⌉

/-- The source function `setEepromFixed16`. -/
def setEepromFixed16 (st : State) (location : Nat) (new_value : ℚ) : State :=
  let d0 : Byte := toUint8 (truncate new_value)
  let d1 : Byte := toUint8 (truncate ((new_value - (d0.val : ℚ)) * 256))
  eeprom_write_block st [d0, d1] location

/-- Little-endian value of a list of bytes. -/
def littleEndian : List Byte → Nat
  | [] => 0
  | b :: bs => b.val + 256 * littleEndian bs

/-- Reinterpretation of an unsigned 64-bit pattern as `int64_t` (two-complement). -/
def toInt64 (u : Nat) : Int :=
  if u % 2 ^ 64 < 2 ^ 63 then ((u % 2 ^ 64 : Nat) : Int) else ((u % 2 ^ 64 : Nat) : Int) - 2 ^ 64

/-- The eight bytes of an `int64_t` in memory order (little-endian, two-complement). -/
def int64Bytes (value : Int) : List Byte :=
  (List.range 8).map (fun k => toUint8 (value / 256 ^ k))

/-- The source function `getEepromInt64`. -/
def getEepromInt64 (e : Eeprom) (location : Nat) (default_value : Int) : Int :=
  let data := eeprom_read_block e location 8
  if data.getD 0 0 = 0xff ∧ data.getD 1 0 = 0xff ∧ data.getD 2 0 = 0xff ∧ data.getD 3 0 = 0xff ∧
      data.getD 4 0 = 0xff ∧ data.getD 5 0 = 0xff ∧ data.getD 6 0 = 0xff ∧ data.getD 7 0 = 0xff
  then default_value
  else toInt64 (littleEndian data)

/-- The source function `setEepromInt64`. -/
def setEepromInt64 (st : State) (location : Nat) (value : Int) : State :=
  eeprom_write_block st (int64Bytes value) location

/-! ## Version manager -/

/-- The source function `init`. -/
def init (cfg : Config) (ext : Collaborators) (st : State) : State :=
  let prom_version := eeprom_read_block st.eeprom cfg.VERSION_LOW 2
  let pv0 := prom_version.getD 0 0
  let pv1 := prom_version.getD 1 0
  if pv1.val * 100 + pv0.val = cfg.firmware_version then st
  else
    let st1 :=
      if pv1 = 0xff ∨ pv1.val < 2 then
        call (call st Event.fullResetEEPROM ext.fullResetEEPROM)
          (Event.stepperAxisInit true) (ext.stepperAxisInit true)
      else st
    let nv0 : Byte := toUint8 (cfg.firmware_version % 100 : Nat)
    let nv1 : Byte := toUint8 (cfg.firmware_version / 100 : Nat)
    let st2 := eeprom_write_block st1 [nv0, nv1] cfg.VERSION_LOW
    if (getEeprom8 st2.eeprom cfg.VERSION7_UPDATE_FLAG 0).val ≠ cfg.VERSION7_FLAG then
      call st2 Event.eepromResetv7 ext.eepromResetv7
    else st2

/-! ## Bulk operations -/

/-- The target microcontroller, which selects `EEPROM_SIZE`. -/
inductive Target where
  | ATmega168
  | ATmega328
  | ATmega644P
  | ATmega1280
  | ATmega2560
  | other
  deriving DecidableEq, Repr

/-- The source constant `EEPROM_SIZE`. -/
def EEPROM_SIZE : Target → Nat
  | Target.ATmega168 => 512
  | Target.ATmega328 => 1024
  | Target.ATmega644P => 2048
  | Target.ATmega1280 => 4096
  | Target.ATmega2560 => 4096
  | Target.other => 0

/-- The loop of `erase`, with `n` iterations left and the counter at `i`. -/
def eraseLoop : Nat → Nat → State → State
  | 0, _, st => st
  | n + 1, i, st => eraseLoop n (i + 1) (wdt_reset (eeprom_write_byte st i 0xff))

/-- The source function `erase`. -/
def erase (t : Target) (st : State) : State := eraseLoop (EEPROM_SIZE t) 0 st

/-- Status reported by the SD-card calls: `SD_SUCCESS` or one of the error codes. -/
inductive SdErrorCode where
  | SD_SUCCESS
  | SD_ERR (code : Nat)
  deriving DecidableEq, Repr

/-- The source call `strlcpy_P(fname, filename, sizeof(fname))` with `char fname[16]`. -/
def strlcpy_P (filename : List Char) : List Char := filename.take 15

/-- Modelled from the spec: the media call `start-capture(name)` of SDCard, which reports
the given open status and, on success, opens an empty capture file. -/
def startCapture (status : SdErrorCode) (fname : List Char) (st : State) : SdErrorCode × State :=
  match status with
  | SdErrorCode.SD_SUCCESS =>
      (status, { st with log := st.log ++ [Event.startCapture fname], captured := [] })
  | SdErrorCode.SD_ERR _ => (status, { st with log := st.log ++ [Event.startCapture fname] })

/-- Modelled from the spec: the media call `write-byte` of SDCard. -/
def writeByte (st : State) (v : Byte) : State :=
  { st with log := st.log ++ [Event.writeByte v], captured := st.captured ++ [v] }

/-- Modelled from the spec: the media call `finish-capture` of SDCard. -/
def finishCapture (st : State) : State := { st with log := st.log ++ [Event.finishCapture] }

/-- Modelled from the spec: the media call `start-playback(name)` of SDCard, which reports
the given open status and, on success, opens the file whose bytes are `file`. -/
def startPlayback (status : SdErrorCode) (file : List Byte) (fname : List Char) (st : State) :
    SdErrorCode × State :=
  match status with
  | SdErrorCode.SD_SUCCESS =>
      (status, { st with log := st.log ++ [Event.startPlayback fname], playback := file })
  | SdErrorCode.SD_ERR _ => (status, { st with log := st.log ++ [Event.startPlayback fname] })

/-- Modelled from the spec: the media call `has-next` of SDCard. -/
def playbackHasNext (st : State) : Bool := !st.playback.isEmpty

/-- Modelled from the spec: the media call `next-byte` of SDCard. -/
def playbackNext (st : State) : Byte × State :=
  (st.playback.headD 0,
    { st with log := st.log ++ [Event.playbackNext], playback := st.playback.tail })

/-- Modelled from the spec: the media call `finish-playback` of SDCard. -/
def finishPlayback (st : State) : State := { st with log := st.log ++ [Event.finishPlayback] }

/-- The loop of `saveToSDFile`, with `n` iterations left and the counter at `i`. -/
def saveLoop : Nat → Nat → State → State
  | 0, _, st => st
  | n + 1, i, st => saveLoop n (i + 1) (wdt_reset (writeByte st (eeprom_read_byte st.eeprom i)))

/-- The source function `saveToSDFile`; `status` is what `startCapture` reports. -/
def saveToSDFile (t : Target) (status : SdErrorCode) (filename : List Char) (st : State) :
    Bool × State :=
  let fname := strlcpy_P filename
  let opened := startCapture status fname st
  if opened.1 ≠ SdErrorCode.SD_SUCCESS then (false, opened.2)
  else (true, finishCapture (saveLoop (EEPROM_SIZE t) 0 opened.2))

/-- The loop of `restoreFromSDFile`, with `n` iterations left and the counter at `i`. -/
def restoreLoop : Nat → Nat → State → State
  | 0, _, st => st
  | n + 1, i, st =>
    if playbackHasNext st then
      let next := playbackNext st
      restoreLoop n (i + 1) (wdt_reset (eeprom_write_byte next.2 i next.1))
    else st

/-- The source function `restoreFromSDFile`; `status` is what `startPlayback` reports and
`file` the content of the named file. -/
def restoreFromSDFile (t : Target) (status : SdErrorCode) (file : List Byte)
    (filename : List Char) (st : State) : Bool × State :=
  let fname := strlcpy_P filename
  let opened := startPlayback status file fname st
  if opened.1 ≠ SdErrorCode.SD_SUCCESS then (false, opened.2)
  else (true, finishPlayback (restoreLoop (EEPROM_SIZE t) 0 opened.2))

/-! ## Auxiliary notions used to state and prove the properties -/

/-- The routine `f` leaves the two bytes of the Version Record as it found them. -/
def KeepsVersionRecord (cfg : Config) (f : Eeprom → Eeprom) : Prop :=
  ∀ e, f e cfg.VERSION_LOW = e cfg.VERSION_LOW ∧ f e (cfg.VERSION_LOW + 1) = e (cfg.VERSION_LOW + 1)

/-- The `width` bytes of the field at `location` all read `0xFF`. -/
def Unwritten (e : Eeprom) (location width : Nat) : Prop :=
  ∀ k, k < width → e (location + k) = 0xff

/-- The device after the version write of `init` (source lines 34-38). -/
def versionWritten (cfg : Config) (e : Eeprom) : Eeprom :=
  eeprom_update (eeprom_update e cfg.VERSION_LOW (toUint8 (cfg.firmware_version % 100 : Nat)))
    (cfg.VERSION_LOW + 1) (toUint8 (cfg.firmware_version / 100 : Nat))

/-- The condition of the migration check of `init` (source line 40) on a device content. -/
def flagUnset (cfg : Config) (e : Eeprom) : Prop :=
  (getEeprom8 e cfg.VERSION7_UPDATE_FLAG 0).val ≠ cfg.VERSION7_FLAG

instance (cfg : Config) (e : Eeprom) : Decidable (flagUnset cfg e) := by
  unfold flagUnset; infer_instance

/-- The tail of `init` after the reset decision (source lines 33-45), started in `st1`,
written out as its net effect on the device and on the log. -/
def initTail (cfg : Config) (ext : Collaborators) (st1 : State) : State :=
  { st1 with
    eeprom := if flagUnset cfg (versionWritten cfg st1.eeprom)
      then ext.eepromResetv7 (versionWritten cfg st1.eeprom) else versionWritten cfg st1.eeprom,
    log := st1.log ++
      [Event.eeprom_write cfg.VERSION_LOW (toUint8 (cfg.firmware_version % 100 : Nat)),
       Event.eeprom_write (cfg.VERSION_LOW + 1) (toUint8 (cfg.firmware_version / 100 : Nat))] ++
      (if flagUnset cfg (versionWritten cfg st1.eeprom) then [Event.eepromResetv7] else []) }

/-- The little-endian unsigned integer formed from the `width` bytes of the field at
`location`: the sum of `byte[location + k] * 256 ^ k` over `k < width`. -/
def fieldValue (e : Eeprom) (location width : Nat) : Nat :=
  ((List.range width).map (fun k => (e (location + k)).val * 256 ^ k)).sum

/-- Whether an event is a write to the EEPROM device. -/
def Event.isDeviceWrite : Event → Bool
  | Event.eeprom_write _ _ => true
  | _ => false

/-! ## Concrete builds, collaborators and devices -/

/-- An example build: firmware 7.9, Version Record at offsets 0 and 1, Migration Flag at
offset `0x1A4` with expected value 63. -/
def sampleConfig : Config :=
  { firmware_version := 709, VERSION_LOW := 0, VERSION7_UPDATE_FLAG := 0x1A4, VERSION7_FLAG := 63 }

/-- A build whose version number, 25600, does not fit the two-byte Version Record. -/
def wideConfig : Config := { sampleConfig with firmware_version := 25600 }

/-- Collaborators without effect on the EEPROM. -/
def idle : Collaborators :=
  { fullResetEEPROM := fun e => e, stepperAxisInit := fun _ e => e, eepromResetv7 := fun e => e }

/-- Modelled from the spec: the migration routine `eepromResetv7` of EepromMap, reduced to
the one effect the spec names: the Migration Flag is set as a side effect of the routine. -/
def setsMigrationFlag (cfg : Config) (e : Eeprom) : Eeprom :=
  eeprom_update e cfg.VERSION7_UPDATE_FLAG (toUint8 (cfg.VERSION7_FLAG : Nat))

/-- Collaborators whose only effect on the EEPROM is that the migration sets its flag. -/
def migrating (cfg : Config) : Collaborators :=
  { idle with eepromResetv7 := setsMigrationFlag cfg }

/-- A build whose version number, 25755, is what the unwritten record `(0xFF, 0xFF)`
decodes to. -/
def sentinelConfig : Config := { sampleConfig with firmware_version := 25755 }

/-- Collaborators whose migration routine overwrites the low byte of the Version Record of
`sampleConfig` with 0, and that have no other effect on the EEPROM. -/
def clobbering : Collaborators :=
  { idle with eepromResetv7 := fun e => eeprom_update e 0 0 }

/-- A device on which nothing was ever written, with empty log and streams. -/
def blankState : State :=
  { eeprom := fun _ => 0xff, log := [], captured := [], playback := [] }

/-- A device that is unwritten except for the Version Record `(low, high)` and the
Migration Flag, laid out as in `sampleConfig`. -/
def deviceWith (low high flag : Byte) : State :=
  { blankState with
    eeprom := fun a => if a = 0 then low else if a = 1 then high
      else if a = 0x1A4 then flag else 0xff }

/-! ## Basic facts about the log, bytes and the device -/

theorem emitted_append (st st2 : State) (evs : List Event) (h : st2.log = st.log ++ evs) :
    emitted st st2 = evs := by
  simp [emitted, h]

theorem emitted_self (st : State) : emitted st st = [] := by
  simp [emitted]

theorem toUint8_val_of_lt (n : Nat) (h : n < 256) : (toUint8 (n : Int)).val = n := by
  simp only [toUint8]
  omega

theorem toUint8_byte (b : Byte) : toUint8 (b.val : Int) = b := by
  apply Fin.ext
  exact toUint8_val_of_lt b.val b.isLt

theorem eeprom_update_same (e : Eeprom) (a : Nat) (v : Byte) : eeprom_update e a v a = v := by
  simp [eeprom_update]

theorem eeprom_update_other (e : Eeprom) (a b : Nat) (v : Byte) (h : b ≠ a) :
    eeprom_update e a v b = e b := by
  simp [eeprom_update, h]

theorem eeprom_read_block_getD (e : Eeprom) (n : Nat) :
    ∀ (src k : Nat), k < n → (eeprom_read_block e src n).getD k 0 = e (src + k) := by
  induction n with
  | zero => intro src k h; omega
  | succ n ih =>
    intro src k h
    cases k with
    | zero => simp [eeprom_read_block]
    | succ k =>
      simp only [eeprom_read_block, List.getD_cons_succ]
      rw [ih (src + 1) k (by omega)]
      congr 1
      omega

/-! ## The version manager -/

theorem storedVersion_written (cfg : Config) (e : Eeprom) (h : cfg.firmware_version < 25600) :
    storedVersion cfg (versionWritten cfg e) = cfg.firmware_version := by
  have h1 : (toUint8 (cfg.firmware_version % 100 : Nat)).val = cfg.firmware_version % 100 :=
    toUint8_val_of_lt _ (by omega)
  have h2 : (toUint8 (cfg.firmware_version / 100 : Nat)).val = cfg.firmware_version / 100 :=
    toUint8_val_of_lt _ (by omega)
  have h3 : cfg.VERSION_LOW ≠ cfg.VERSION_LOW + 1 := by omega
  simp only [storedVersion, versionWritten, eeprom_update_same, eeprom_update_other _ _ _ _ h3,
    h1, h2]
  omega

theorem versionWritten_other (cfg : Config) (e : Eeprom) (a : Nat)
    (h0 : a ≠ cfg.VERSION_LOW) (h1 : a ≠ cfg.VERSION_LOW + 1) : versionWritten cfg e a = e a := by
  simp [versionWritten, eeprom_update, h0, h1]

theorem flagUnset_versionWritten (cfg : Config) (e : Eeprom)
    (h0 : cfg.VERSION7_UPDATE_FLAG ≠ cfg.VERSION_LOW)
    (h1 : cfg.VERSION7_UPDATE_FLAG ≠ cfg.VERSION_LOW + 1) :
    flagUnset cfg (versionWritten cfg e) ↔
      (getEeprom8 e cfg.VERSION7_UPDATE_FLAG 0).val ≠ cfg.VERSION7_FLAG := by
  simp only [flagUnset, getEeprom8, eeprom_read_block, List.getD_cons_zero,
    versionWritten_other cfg e _ h0 h1]

/-- When the stored version is the compiled one, `init` returns its argument. -/
theorem init_of_current (cfg : Config) (ext : Collaborators) (st : State)
    (h : storedVersion cfg st.eeprom = cfg.firmware_version) : init cfg ext st = st := by
  simp only [storedVersion] at h
  simp [init, eeprom_read_block, h]

/-- On a version mismatch with a high byte that is `0xFF` or below 2, `init` runs the two
reset routines and then its tail. -/
theorem init_of_reset (cfg : Config) (ext : Collaborators) (st : State)
    (h : storedVersion cfg st.eeprom ≠ cfg.firmware_version)
    (hr : st.eeprom (cfg.VERSION_LOW + 1) = 0xff ∨ (st.eeprom (cfg.VERSION_LOW + 1)).val < 2) :
    init cfg ext st = initTail cfg ext
      (call (call st Event.fullResetEEPROM ext.fullResetEEPROM)
        (Event.stepperAxisInit true) (ext.stepperAxisInit true)) := by
  simp only [storedVersion] at h
  simp only [init, eeprom_read_block, List.getD_cons_zero, List.getD_cons_succ, h, if_false, hr,
    if_true, initTail, flagUnset, versionWritten, eeprom_write_block, eeprom_write_byte, call]
  split_ifs <;> simp

/-- On a version mismatch with any other high byte, `init` runs its tail only. -/
theorem init_of_stale (cfg : Config) (ext : Collaborators) (st : State)
    (h : storedVersion cfg st.eeprom ≠ cfg.firmware_version)
    (hr : ¬ (st.eeprom (cfg.VERSION_LOW + 1) = 0xff ∨ (st.eeprom (cfg.VERSION_LOW + 1)).val < 2)) :
    init cfg ext st = initTail cfg ext st := by
  simp only [storedVersion] at h
  simp only [init, eeprom_read_block, List.getD_cons_zero, List.getD_cons_succ, h, if_false, hr,
    if_true, initTail, flagUnset, versionWritten, eeprom_write_block, eeprom_write_byte, call]
  split_ifs <;> simp

theorem storedVersion_initTail (cfg : Config) (ext : Collaborators) (st1 : State)
    (hfv : cfg.firmware_version < 25600) (hk : KeepsVersionRecord cfg ext.eepromResetv7) :
    storedVersion cfg (initTail cfg ext st1).eeprom = cfg.firmware_version := by
  have hw := storedVersion_written cfg st1.eeprom hfv
  simp only [initTail]
  split_ifs
  · simp only [storedVersion] at hw ⊢
    rw [(hk _).1, (hk _).2]
    exact hw
  · exact hw

theorem storedVersion_init (cfg : Config) (ext : Collaborators) (st : State)
    (hfv : cfg.firmware_version < 25600) (hk : KeepsVersionRecord cfg ext.eepromResetv7) :
    storedVersion cfg (init cfg ext st).eeprom = cfg.firmware_version := by
  by_cases h : storedVersion cfg st.eeprom = cfg.firmware_version
  · rw [init_of_current cfg ext st h]; exact h
  · by_cases hr : st.eeprom (cfg.VERSION_LOW + 1) = 0xff ∨ (st.eeprom (cfg.VERSION_LOW + 1)).val < 2
    · rw [init_of_reset cfg ext st h hr]; exact storedVersion_initTail cfg ext _ hfv hk
    · rw [init_of_stale cfg ext st h hr]; exact storedVersion_initTail cfg ext _ hfv hk

theorem initTail_log (cfg : Config) (ext : Collaborators) (st st1 : State) (pre : List Event)
    (h : st1.log = st.log ++ pre) :
    emitted st (initTail cfg ext st1) = pre ++
      ([Event.eeprom_write cfg.VERSION_LOW (toUint8 (cfg.firmware_version % 100 : Nat)),
        Event.eeprom_write (cfg.VERSION_LOW + 1) (toUint8 (cfg.firmware_version / 100 : Nat))] ++
      (if flagUnset cfg (versionWritten cfg st1.eeprom) then [Event.eepromResetv7] else [])) := by
  apply emitted_append
  simp [initTail, h]

/-- Everything `init` does on the reset path, in order. -/
theorem emitted_init_reset (cfg : Config) (ext : Collaborators) (st : State)
    (h : storedVersion cfg st.eeprom ≠ cfg.firmware_version)
    (hr : st.eeprom (cfg.VERSION_LOW + 1) = 0xff ∨ (st.eeprom (cfg.VERSION_LOW + 1)).val < 2) :
    emitted st (init cfg ext st) =
      [Event.fullResetEEPROM, Event.stepperAxisInit true] ++
      ([Event.eeprom_write cfg.VERSION_LOW (toUint8 (cfg.firmware_version % 100 : Nat)),
        Event.eeprom_write (cfg.VERSION_LOW + 1) (toUint8 (cfg.firmware_version / 100 : Nat))] ++
      (if flagUnset cfg (versionWritten cfg
          (ext.stepperAxisInit true (ext.fullResetEEPROM st.eeprom)))
        then [Event.eepromResetv7] else [])) := by
  rw [init_of_reset cfg ext st h hr]
  exact initTail_log cfg ext st _ _ (by simp [call])

/-- Everything `init` does on the path without reset, in order. -/
theorem emitted_init_stale (cfg : Config) (ext : Collaborators) (st : State)
    (h : storedVersion cfg st.eeprom ≠ cfg.firmware_version)
    (hr : ¬ (st.eeprom (cfg.VERSION_LOW + 1) = 0xff ∨ (st.eeprom (cfg.VERSION_LOW + 1)).val < 2)) :
    emitted st (init cfg ext st) =
      [Event.eeprom_write cfg.VERSION_LOW (toUint8 (cfg.firmware_version % 100 : Nat)),
        Event.eeprom_write (cfg.VERSION_LOW + 1) (toUint8 (cfg.firmware_version / 100 : Nat))] ++
      (if flagUnset cfg (versionWritten cfg st.eeprom) then [Event.eepromResetv7] else []) := by
  rw [init_of_stale cfg ext st h hr]
  simpa using initTail_log cfg ext st st [] (by simp)

/-- Claim C1, amended: for every initial storage content and every compiled
`firmware_version` below 25600 (so that `firmware_version / 100` fits the one-byte high
field), after `init` returns the Version Record decodes to the firmware version, provided
the migration routine `eepromResetv7`, the only external routine that runs after the
version write, does not write the two version bytes. -/
theorem init_stores_firmware_version (cfg : Config) (ext : Collaborators) (st : State)
    (hfv : cfg.firmware_version < 25600) (hk : KeepsVersionRecord cfg ext.eepromResetv7) :
    ((init cfg ext st).eeprom (cfg.VERSION_LOW + 1)).val * 100
      + ((init cfg ext st).eeprom cfg.VERSION_LOW).val = cfg.firmware_version :=
  storedVersion_init cfg ext st hfv hk

/-- Claim C1, amended, at the example build on a blank device. -/
theorem init_stores_firmware_version_witness :
    sampleConfig.firmware_version < 25600 ∧ KeepsVersionRecord sampleConfig idle.eepromResetv7 ∧
    ((init sampleConfig idle blankState).eeprom (sampleConfig.VERSION_LOW + 1)).val * 100
      + ((init sampleConfig idle blankState).eeprom sampleConfig.VERSION_LOW).val
      = sampleConfig.firmware_version :=
  ⟨by decide, fun _ => ⟨rfl, rfl⟩,
    init_stores_firmware_version sampleConfig idle blankState (by decide) (fun _ => ⟨rfl, rfl⟩)⟩

/-- Claim C1 as stated fails: with `firmware_version = 25600` and external routines that
write nothing, `init` on a blank device stores the bytes `(0, 0)`, because
`25600 / 100 = 256` is narrowed to the `uint8_t` 0; the Version Record then decodes to 0
and not to 25600. -/
theorem init_version_record_overflow :
    KeepsVersionRecord wideConfig idle.fullResetEEPROM ∧
    KeepsVersionRecord wideConfig (idle.stepperAxisInit true) ∧
    KeepsVersionRecord wideConfig idle.eepromResetv7 ∧
    wideConfig.firmware_version = 25600 ∧
    ((init wideConfig idle blankState).eeprom (wideConfig.VERSION_LOW + 1)).val * 100
      + ((init wideConfig idle blankState).eeprom wideConfig.VERSION_LOW).val = 0 ∧
    ((init wideConfig idle blankState).eeprom (wideConfig.VERSION_LOW + 1)).val * 100
      + ((init wideConfig idle blankState).eeprom wideConfig.VERSION_LOW).val
      ≠ wideConfig.firmware_version :=
  ⟨fun _ => ⟨rfl, rfl⟩, fun _ => ⟨rfl, rfl⟩, fun _ => ⟨rfl, rfl⟩, rfl, by decide, by decide⟩

/-- Claim C2, amended: `init` is idempotent when the compiled `firmware_version` is below
25600 and the migration routine `eepromResetv7` does not write the two version bytes. Then,
for every initial storage content, after a first `init` the stored version is the compiled
one, so a second `init` takes the version-matches branch: it appends nothing to the log (no
device write, no reset or migration routine) and returns the state of the first call
unchanged. -/
theorem init_idempotent (cfg : Config) (ext : Collaborators) (st : State)
    (hfv : cfg.firmware_version < 25600) (hk : KeepsVersionRecord cfg ext.eepromResetv7) :
    storedVersion cfg (init cfg ext st).eeprom = cfg.firmware_version ∧
    emitted (init cfg ext st) (init cfg ext (init cfg ext st)) = [] ∧
    init cfg ext (init cfg ext st) = init cfg ext st := by
  have h := storedVersion_init cfg ext st hfv hk
  have h2 := init_of_current cfg ext _ h
  refine ⟨h, ?_, h2⟩
  rw [h2]
  exact emitted_self _

/-- Claim C2, amended, at the example build, with a migration that sets its flag, on a
blank device. -/
theorem init_idempotent_witness :
    sampleConfig.firmware_version < 25600 ∧
    KeepsVersionRecord sampleConfig (migrating sampleConfig).eepromResetv7 ∧
    storedVersion sampleConfig (init sampleConfig (migrating sampleConfig) blankState).eeprom
      = sampleConfig.firmware_version ∧
    emitted (init sampleConfig (migrating sampleConfig) blankState)
      (init sampleConfig (migrating sampleConfig)
        (init sampleConfig (migrating sampleConfig) blankState)) = [] ∧
    init sampleConfig (migrating sampleConfig)
        (init sampleConfig (migrating sampleConfig) blankState)
      = init sampleConfig (migrating sampleConfig) blankState :=
  ⟨by decide, fun _ => ⟨rfl, rfl⟩,
    init_idempotent sampleConfig (migrating sampleConfig) blankState (by decide)
      (fun _ => ⟨rfl, rfl⟩)⟩

/-- Claim C2 as stated fails. First, with `firmware_version = 25600` and external routines
that write nothing, the first `init` on a blank device stores `(0, 0)`, which decodes to 0,
so the second `init` runs the full reset, both version writes and the migration again.
Second, at the example build with a migration routine that overwrites the low version
byte, the first `init` leaves a record that decodes to 700, not 709, and the second `init`
writes the record and calls the migration again. -/
theorem init_twice_repeats_work :
    (KeepsVersionRecord wideConfig idle.eepromResetv7 ∧
      storedVersion wideConfig (init wideConfig idle blankState).eeprom
        ≠ wideConfig.firmware_version ∧
      emitted (init wideConfig idle blankState)
          (init wideConfig idle (init wideConfig idle blankState))
        = [Event.fullResetEEPROM, Event.stepperAxisInit true, Event.eeprom_write 0 0,
            Event.eeprom_write 1 0, Event.eepromResetv7]) ∧
    (sampleConfig.firmware_version < 25600 ∧
      storedVersion sampleConfig (init sampleConfig clobbering blankState).eeprom = 700 ∧
      emitted (init sampleConfig clobbering blankState)
          (init sampleConfig clobbering (init sampleConfig clobbering blankState))
        = [Event.eeprom_write 0 9, Event.eeprom_write 1 7, Event.eepromResetv7]) :=
  ⟨⟨fun _ => ⟨rfl, rfl⟩, by decide, by decide⟩, by decide, by decide, by decide⟩

/-- Claim C3, amended: for every storage content whose Version Record bytes are
`(0xFF, 0xFF)`, when the compiled `firmware_version` is below 25600 and the migration
routine `eepromResetv7` does not write the two version bytes, `init` invokes
`fullResetEEPROM` and, after it returns, the Version Record decodes (`high * 100 + low`) to
exactly the compiled firmware version. -/
theorem init_unwritten_full_reset (cfg : Config) (ext : Collaborators) (st : State)
    (hlow : st.eeprom cfg.VERSION_LOW = 0xff) (hhigh : st.eeprom (cfg.VERSION_LOW + 1) = 0xff)
    (hfv : cfg.firmware_version < 25600) (hk : KeepsVersionRecord cfg ext.eepromResetv7) :
    Event.fullResetEEPROM ∈ emitted st (init cfg ext st) ∧
    ((init cfg ext st).eeprom (cfg.VERSION_LOW + 1)).val * 100
      + ((init cfg ext st).eeprom cfg.VERSION_LOW).val = cfg.firmware_version := by
  have hne : storedVersion cfg st.eeprom ≠ cfg.firmware_version := by
    simp only [storedVersion, hlow, hhigh]
    have : ((0xff : Byte)).val = 255 := rfl
    omega
  refine ⟨?_, storedVersion_init cfg ext st hfv hk⟩
  rw [emitted_init_reset cfg ext st hne (Or.inl hhigh)]
  simp

/-- Claim C3, amended, at the example build on a blank device. -/
theorem init_unwritten_full_reset_witness :
    blankState.eeprom sampleConfig.VERSION_LOW = 0xff ∧
    blankState.eeprom (sampleConfig.VERSION_LOW + 1) = 0xff ∧
    sampleConfig.firmware_version < 25600 ∧
    KeepsVersionRecord sampleConfig (migrating sampleConfig).eepromResetv7 ∧
    Event.fullResetEEPROM ∈
      emitted blankState (init sampleConfig (migrating sampleConfig) blankState) ∧
    ((init sampleConfig (migrating sampleConfig) blankState).eeprom
        (sampleConfig.VERSION_LOW + 1)).val * 100
      + ((init sampleConfig (migrating sampleConfig) blankState).eeprom
        sampleConfig.VERSION_LOW).val = sampleConfig.firmware_version :=
  ⟨rfl, rfl, by decide, fun _ => ⟨rfl, rfl⟩,
    init_unwritten_full_reset sampleConfig (migrating sampleConfig) blankState rfl rfl
      (by decide) (fun _ => ⟨rfl, rfl⟩)⟩

/-- Claim C3 as stated fails, each time on a blank device, whose Version Record is
`(0xFF, 0xFF)`. With `firmware_version = 25755` the record decodes to the compiled version
and `init` returns at once, without the full reset. With `firmware_version = 25600` the
full reset runs but the record written is `(0, 0)`, which decodes to 0. At the example
build with a migration routine that overwrites the low version byte, the full reset runs
but the record decodes to 700 afterwards, not to 709. -/
theorem init_unwritten_counterexample :
    (blankState.eeprom sentinelConfig.VERSION_LOW = 0xff ∧
      blankState.eeprom (sentinelConfig.VERSION_LOW + 1) = 0xff ∧
      KeepsVersionRecord sentinelConfig idle.eepromResetv7 ∧
      Event.fullResetEEPROM ∉ emitted blankState (init sentinelConfig idle blankState) ∧
      emitted blankState (init sentinelConfig idle blankState) = []) ∧
    (KeepsVersionRecord wideConfig idle.eepromResetv7 ∧
      Event.fullResetEEPROM ∈ emitted blankState (init wideConfig idle blankState) ∧
      storedVersion wideConfig (init wideConfig idle blankState).eeprom = 0 ∧
      wideConfig.firmware_version = 25600) ∧
    (sampleConfig.firmware_version = 709 ∧
      Event.fullResetEEPROM ∈ emitted blankState (init sampleConfig clobbering blankState) ∧
      storedVersion sampleConfig (init sampleConfig clobbering blankState).eeprom = 700) :=
  ⟨⟨rfl, rfl, fun _ => ⟨rfl, rfl⟩, by decide, by decide⟩,
    ⟨fun _ => ⟨rfl, rfl⟩, by decide, by decide, rfl⟩, rfl, by decide, by decide⟩

/-- Claim C4, amended: for every stored Version Record that differs from the compiled
firmware version, (1) if the decoded stored version is below 200, `init` triggers the full
reset; (2) if the high byte is at least 2 and is not `0xFF`, `init` does not trigger the
full reset, the only device writes it performs itself are to the two Version Record bytes,
and every other storage byte is untouched unless the migration routine `eepromResetv7`
runs. -/
theorem init_reset_classification (cfg : Config) (ext : Collaborators) (st : State)
    (hne : (st.eeprom (cfg.VERSION_LOW + 1)).val * 100 + (st.eeprom cfg.VERSION_LOW).val
      ≠ cfg.firmware_version) :
    ((st.eeprom (cfg.VERSION_LOW + 1)).val * 100 + (st.eeprom cfg.VERSION_LOW).val < 200 →
      Event.fullResetEEPROM ∈ emitted st (init cfg ext st)) ∧
    (2 ≤ (st.eeprom (cfg.VERSION_LOW + 1)).val → st.eeprom (cfg.VERSION_LOW + 1) ≠ 0xff →
      Event.fullResetEEPROM ∉ emitted st (init cfg ext st) ∧
      (∀ a v, Event.eeprom_write a v ∈ emitted st (init cfg ext st) →
        a = cfg.VERSION_LOW ∨ a = cfg.VERSION_LOW + 1) ∧
      (Event.eepromResetv7 ∉ emitted st (init cfg ext st) →
        ∀ a, a ≠ cfg.VERSION_LOW → a ≠ cfg.VERSION_LOW + 1 →
          (init cfg ext st).eeprom a = st.eeprom a)) := by
  have hne2 : storedVersion cfg st.eeprom ≠ cfg.firmware_version := hne
  constructor
  · intro hold
    have hr : st.eeprom (cfg.VERSION_LOW + 1) = 0xff ∨ (st.eeprom (cfg.VERSION_LOW + 1)).val < 2 :=
      Or.inr (by omega)
    rw [emitted_init_reset cfg ext st hne2 hr]
    simp
  · intro h2 hff
    have hr : ¬ (st.eeprom (cfg.VERSION_LOW + 1) = 0xff ∨
        (st.eeprom (cfg.VERSION_LOW + 1)).val < 2) := by
      rintro (h | h)
      · exact hff h
      · omega
    rw [emitted_init_stale cfg ext st hne2 hr, init_of_stale cfg ext st hne2 hr]
    refine ⟨?_, ?_, ?_⟩
    · split_ifs <;> simp
    · intro a v hmem
      split_ifs at hmem <;> simp at hmem <;> omega
    · intro hmig a h0 h1
      by_cases hf : flagUnset cfg (versionWritten cfg st.eeprom)
      · simp [hf] at hmig
      · simp only [initTail, hf, if_false]
        exact versionWritten_other cfg st.eeprom a h0 h1

/-- Claim C4, amended, at the example build: a device holding version 7.5 with the
Migration Flag set, and a device holding version 1.50. -/
theorem init_reset_classification_witness :
    storedVersion sampleConfig (deviceWith 5 7 63).eeprom ≠ sampleConfig.firmware_version ∧
    2 ≤ ((deviceWith 5 7 63).eeprom (sampleConfig.VERSION_LOW + 1)).val ∧
    (deviceWith 5 7 63).eeprom (sampleConfig.VERSION_LOW + 1) ≠ 0xff ∧
    Event.eepromResetv7 ∉ emitted (deviceWith 5 7 63) (init sampleConfig idle (deviceWith 5 7 63)) ∧
    Event.fullResetEEPROM ∉
      emitted (deviceWith 5 7 63) (init sampleConfig idle (deviceWith 5 7 63)) ∧
    (init sampleConfig idle (deviceWith 5 7 63)).eeprom 2 = (deviceWith 5 7 63).eeprom 2 ∧
    storedVersion sampleConfig (deviceWith 50 1 63).eeprom ≠ sampleConfig.firmware_version ∧
    storedVersion sampleConfig (deviceWith 50 1 63).eeprom < 200 ∧
    Event.fullResetEEPROM ∈
      emitted (deviceWith 50 1 63) (init sampleConfig idle (deviceWith 50 1 63)) :=
  have h := (init_reset_classification sampleConfig idle (deviceWith 5 7 63) (by decide)).2
    (by decide) (by decide)
  ⟨by decide, by decide, by decide, by decide, h.1,
    h.2.2 (by decide) 2 (by decide) (by decide), by decide, by decide,
    (init_reset_classification sampleConfig idle (deviceWith 50 1 63) (by decide)).1
      (by decide)⟩

/-- Claim C4 as stated fails, at the example build (firmware 7.9). First, the Version
Record `(low, high) = (150, 1)` decodes to 250, which is at least 200 and below 709, yet
`init` triggers the full reset because the high byte is below 2. Second, on a device
holding version 7.5 whose Migration Flag is unset, `init` triggers no full reset but calls
the migration routine, which changes the flag byte, a byte outside the Version Record. -/
theorem init_stale_counterexample :
    (200 ≤ storedVersion sampleConfig (deviceWith 150 1 63).eeprom ∧
      storedVersion sampleConfig (deviceWith 150 1 63).eeprom < sampleConfig.firmware_version ∧
      Event.fullResetEEPROM ∈
        emitted (deviceWith 150 1 63) (init sampleConfig idle (deviceWith 150 1 63))) ∧
    (200 ≤ storedVersion sampleConfig (deviceWith 5 7 0xff).eeprom ∧
      storedVersion sampleConfig (deviceWith 5 7 0xff).eeprom < sampleConfig.firmware_version ∧
      Event.fullResetEEPROM ∉ emitted (deviceWith 5 7 0xff)
        (init sampleConfig (migrating sampleConfig) (deviceWith 5 7 0xff)) ∧
      sampleConfig.VERSION7_UPDATE_FLAG ≠ sampleConfig.VERSION_LOW ∧
      sampleConfig.VERSION7_UPDATE_FLAG ≠ sampleConfig.VERSION_LOW + 1 ∧
      (init sampleConfig (migrating sampleConfig) (deviceWith 5 7 0xff)).eeprom
          sampleConfig.VERSION7_UPDATE_FLAG
        ≠ (deviceWith 5 7 0xff).eeprom sampleConfig.VERSION7_UPDATE_FLAG) := by
  decide

/-- Claim C10, amended: `init` checks the Migration Flag only when the stored version
differs from the compiled firmware version. When the versions match it returns before the
check and does not invoke `eepromResetv7`. When they differ it invokes `eepromResetv7`
exactly when the flag byte at `VERSION7_UPDATE_FLAG`, read with `getEeprom8` and default 0
after the optional full reset, is not equal to `VERSION7_FLAG`. The flag offset is taken to
be outside the Version Record, so that the version write does not change the flag byte. -/
theorem init_migration_check (cfg : Config) (ext : Collaborators) (st : State)
    (h0 : cfg.VERSION7_UPDATE_FLAG ≠ cfg.VERSION_LOW)
    (h1 : cfg.VERSION7_UPDATE_FLAG ≠ cfg.VERSION_LOW + 1) :
    ((st.eeprom (cfg.VERSION_LOW + 1)).val * 100 + (st.eeprom cfg.VERSION_LOW).val
        = cfg.firmware_version →
      Event.eepromResetv7 ∉ emitted st (init cfg ext st)) ∧
    ((st.eeprom (cfg.VERSION_LOW + 1)).val * 100 + (st.eeprom cfg.VERSION_LOW).val
        ≠ cfg.firmware_version →
      (¬ (st.eeprom (cfg.VERSION_LOW + 1) = 0xff ∨ (st.eeprom (cfg.VERSION_LOW + 1)).val < 2) →
        (Event.eepromResetv7 ∈ emitted st (init cfg ext st) ↔
          (getEeprom8 st.eeprom cfg.VERSION7_UPDATE_FLAG 0).val ≠ cfg.VERSION7_FLAG)) ∧
      ((st.eeprom (cfg.VERSION_LOW + 1) = 0xff ∨ (st.eeprom (cfg.VERSION_LOW + 1)).val < 2) →
        (Event.eepromResetv7 ∈ emitted st (init cfg ext st) ↔
          (getEeprom8 (ext.stepperAxisInit true (ext.fullResetEEPROM st.eeprom))
            cfg.VERSION7_UPDATE_FLAG 0).val ≠ cfg.VERSION7_FLAG))) := by
  refine ⟨fun heq => ?_, fun hne => ⟨fun hr => ?_, fun hr => ?_⟩⟩
  · rw [init_of_current cfg ext st heq, emitted_self]
    simp
  · rw [emitted_init_stale cfg ext st hne hr, ← flagUnset_versionWritten cfg _ h0 h1]
    split_ifs with hf <;> simp [hf]
  · rw [emitted_init_reset cfg ext st hne hr, ← flagUnset_versionWritten cfg _ h0 h1]
    split_ifs with hf <;> simp [hf]

/-- Claim C10, amended, at the example build: with version 7.5 stored and the flag unset
the migration runs; with the current version stored it does not. -/
theorem init_migration_check_witness :
    sampleConfig.VERSION7_UPDATE_FLAG ≠ sampleConfig.VERSION_LOW ∧
    sampleConfig.VERSION7_UPDATE_FLAG ≠ sampleConfig.VERSION_LOW + 1 ∧
    storedVersion sampleConfig (deviceWith 5 7 0xff).eeprom ≠ sampleConfig.firmware_version ∧
    (getEeprom8 (deviceWith 5 7 0xff).eeprom sampleConfig.VERSION7_UPDATE_FLAG 0).val
      ≠ sampleConfig.VERSION7_FLAG ∧
    Event.eepromResetv7 ∈ emitted (deviceWith 5 7 0xff)
      (init sampleConfig (migrating sampleConfig) (deviceWith 5 7 0xff)) ∧
    storedVersion sampleConfig (deviceWith 9 7 0xff).eeprom = sampleConfig.firmware_version ∧
    Event.eepromResetv7 ∉ emitted (deviceWith 9 7 0xff)
      (init sampleConfig (migrating sampleConfig) (deviceWith 9 7 0xff)) :=
  ⟨by decide, by decide, by decide, by decide,
    (((init_migration_check sampleConfig (migrating sampleConfig) (deviceWith 5 7 0xff)
      (by decide) (by decide)).2 (by decide)).1 (by decide)).2 (by decide),
    by decide,
    (init_migration_check sampleConfig (migrating sampleConfig) (deviceWith 9 7 0xff)
      (by decide) (by decide)).1 (by decide)⟩

/-- Claim C10 as stated fails, at the example build: on a device that stores the current
version 7.9 and whose Migration Flag is unset (the flag byte reads `0xFF`, so `getEeprom8`
with default 0 yields 0, not `VERSION7_FLAG = 63`), `init` returns at once, leaves the
state as it was and does not invoke `eepromResetv7`. -/
theorem init_skips_migration_when_current :
    storedVersion sampleConfig (deviceWith 9 7 0xff).eeprom = sampleConfig.firmware_version ∧
    (getEeprom8 (deviceWith 9 7 0xff).eeprom sampleConfig.VERSION7_UPDATE_FLAG 0).val
      ≠ sampleConfig.VERSION7_FLAG ∧
    Event.eepromResetv7 ∉ emitted (deviceWith 9 7 0xff)
      (init sampleConfig (migrating sampleConfig) (deviceWith 9 7 0xff)) ∧
    init sampleConfig (migrating sampleConfig) (deviceWith 9 7 0xff) = deviceWith 9 7 0xff := by
  refine ⟨by decide, by decide, by decide, ?_⟩
  exact init_of_current _ _ _ (by decide)

/-! ## Typed accessors -/

theorem eeprom_read_dword_unwritten (e : Eeprom) (location : Nat) (h : Unwritten e location 4) :
    eeprom_read_dword e location = 0xffffffff := by
  have h0 := h 0 (by omega)
  have h1 := h 1 (by omega)
  have h2 := h 2 (by omega)
  have h3 := h 3 (by omega)
  simp only [Nat.add_zero] at h0
  simp only [eeprom_read_dword, h0, h1, h2, h3]
  rfl

theorem unwritten_getD (e : Eeprom) (location width k : Nat) (h : Unwritten e location width)
    (hk : k < width) : (eeprom_read_block e location width).getD k 0 = 0xff := by
  rw [eeprom_read_block_getD e width location k hk]
  exact h k hk

/-- Claim C5: for every location and every default value, each getter (`getEeprom8`,
`getEeprom16`, `getEeprom32`, `getEepromFixed16`, `getEepromInt64`) applied to storage in
which every byte of its field is `0xFF` returns exactly the caller-supplied default. -/
theorem getters_default_when_unwritten (e : Eeprom) (location : Nat) :
    (Unwritten e location 1 → ∀ d, getEeprom8 e location d = d) ∧
    (Unwritten e location 2 → ∀ d, getEeprom16 e location d = d) ∧
    (Unwritten e location 4 → ∀ d, getEeprom32 e location d = d) ∧
    (Unwritten e location 2 → ∀ d, getEepromFixed16 e location d = d) ∧
    (Unwritten e location 8 → ∀ d, getEepromInt64 e location d = d) := by
  refine ⟨fun h d => ?_, fun h d => ?_, fun h d => ?_, fun h d => ?_, fun h d => ?_⟩
  · simp only [getEeprom8, unwritten_getD e location 1 0 h (by omega), if_true]
  · simp only [getEeprom16, unwritten_getD e location 2 0 h (by omega),
      unwritten_getD e location 2 1 h (by omega)]
    rfl
  · simp only [getEeprom32, eeprom_read_dword_unwritten e location h, if_true]
  · simp only [getEepromFixed16, unwritten_getD e location 2 0 h (by omega),
      unwritten_getD e location 2 1 h (by omega), and_self, if_true]
  · simp only [getEepromInt64, unwritten_getD e location 8 0 h (by omega),
      unwritten_getD e location 8 1 h (by omega), unwritten_getD e location 8 2 h (by omega),
      unwritten_getD e location 8 3 h (by omega), unwritten_getD e location 8 4 h (by omega),
      unwritten_getD e location 8 5 h (by omega), unwritten_getD e location 8 6 h (by omega),
      unwritten_getD e location 8 7 h (by omega), and_self, if_true]

/-- Claim C5 on a blank device, at location 40. -/
theorem getters_default_when_unwritten_witness :
    Unwritten blankState.eeprom 40 8 ∧
    getEeprom8 blankState.eeprom 40 7 = 7 ∧ getEeprom16 blankState.eeprom 40 1234 = 1234 ∧
    getEeprom32 blankState.eeprom 40 100000 = 100000 ∧
    getEepromFixed16 blankState.eeprom 40 (3 / 2) = 3 / 2 ∧
    getEepromInt64 blankState.eeprom 40 (-5) = -5 :=
  have h := getters_default_when_unwritten blankState.eeprom 40
  ⟨fun _ _ => rfl, h.1 (fun _ _ => rfl) 7, h.2.1 (fun _ _ => rfl) 1234,
    h.2.2.1 (fun _ _ => rfl) 100000, h.2.2.2.1 (fun _ _ => rfl) (3 / 2),
    h.2.2.2.2 (fun _ _ => rfl) (-5)⟩

theorem truncate_natCast (n : Nat) : truncate (n : ℚ) = (n : Int) := by
  have h : (0 : ℚ) ≤ (n : ℚ) := Nat.cast_nonneg n
  simp only [truncate, h, if_true]
  exact_mod_cast (Int.floor_natCast n : ⌊(n : ℚ)⌋ = (n : Int))

theorem truncate_fixed16 (i f : Byte) :
    truncate ((i.val : ℚ) + (f.val : ℚ) / 256) = (i.val : Int) := by
  have hf : (f.val : ℚ) < 256 := by exact_mod_cast f.isLt
  have hf0 : (0 : ℚ) ≤ (f.val : ℚ) := Nat.cast_nonneg _
  have hi0 : (0 : ℚ) ≤ (i.val : ℚ) := Nat.cast_nonneg _
  have hnn : (0 : ℚ) ≤ (i.val : ℚ) + (f.val : ℚ) / 256 := by positivity
  simp only [truncate, hnn, if_true]
  rw [Int.floor_eq_iff]
  constructor
  · push_cast
    linarith [div_nonneg hf0 (by norm_num : (0 : ℚ) ≤ 256)]
  · push_cast
    have : (f.val : ℚ) / 256 < 1 := by
      rw [div_lt_one (by norm_num)]
      exact hf
    linarith

theorem setEepromFixed16_eeprom (st : State) (location : Nat) (i f : Byte) :
    (setEepromFixed16 st location ((i.val : ℚ) + (f.val : ℚ) / 256)).eeprom =
      eeprom_update (eeprom_update st.eeprom location i) (location + 1) f := by
  have h0 : toUint8 (truncate ((i.val : ℚ) + (f.val : ℚ) / 256)) = i := by
    rw [truncate_fixed16, toUint8_byte]
  have h1 : ((i.val : ℚ) + (f.val : ℚ) / 256 - (i.val : ℚ)) * 256 = (f.val : ℚ) := by
    ring
  simp only [setEepromFixed16, h0, h1, truncate_natCast, toUint8_byte, eeprom_write_block,
    eeprom_write_byte]

/-- Claim C6: fixed-point round trip. For every location, every default `d` and every value
`v = i + f/256` with bytes `i`, `f` not both `0xFF`, `setEepromFixed16 location v` followed
by `getEepromFixed16 location d` returns `v` (over exact rational arithmetic). -/
theorem fixed16_round_trip (st : State) (location : Nat) (d : ℚ) (i f : Byte)
    (h : ¬ (i = 0xff ∧ f = 0xff)) :
    getEepromFixed16 (setEepromFixed16 st location ((i.val : ℚ) + (f.val : ℚ) / 256)).eeprom
      location d = (i.val : ℚ) + (f.val : ℚ) / 256 := by
  have hne : location ≠ location + 1 := by omega
  rw [setEepromFixed16_eeprom]
  simp only [getEepromFixed16, eeprom_read_block, List.getD_cons_zero, List.getD_cons_succ,
    eeprom_update_same, eeprom_update_other _ _ _ _ hne, h, if_false]

/-- Claim C6 for the value `7 + 3/256` written at location 16 of a blank device. -/
theorem fixed16_round_trip_witness :
    ¬ ((7 : Byte) = 0xff ∧ (3 : Byte) = 0xff) ∧
    getEepromFixed16 (setEepromFixed16 blankState 16 (((7 : Byte).val : ℚ) + ((3 : Byte).val : ℚ) / 256)).eeprom
      16 0 = ((7 : Byte).val : ℚ) + ((3 : Byte).val : ℚ) / 256 :=
  ⟨by decide, fixed16_round_trip blankState 16 0 7 3 (by decide)⟩

/-! ## Bulk operations -/

theorem eraseLoop_eeprom (n : Nat) :
    ∀ (i : Nat) (st : State) (a : Nat),
      (eraseLoop n i st).eeprom a = if i ≤ a ∧ a < i + n then 0xff else st.eeprom a := by
  induction n with
  | zero =>
    intro i st a
    have : ¬ (i ≤ a ∧ a < i + 0) := by omega
    simp only [eraseLoop, this, if_false]
  | succ n ih =>
    intro i st a
    simp only [eraseLoop, ih, wdt_reset, eeprom_write_byte, eeprom_update]
    by_cases h1 : i + 1 ≤ a ∧ a < i + 1 + n
    · have h2 : i ≤ a ∧ a < i + (n + 1) := by omega
      rw [if_pos h1, if_pos h2]
    · by_cases h3 : a = i
      · have h2 : i ≤ a ∧ a < i + (n + 1) := by omega
        rw [if_neg h1, if_pos h3, if_pos h2]
      · have h2 : ¬ (i ≤ a ∧ a < i + (n + 1)) := by omega
        rw [if_neg h1, if_neg h3, if_neg h2]

/-- Claim C7: for every initial storage content, after `erase` returns every address `i`
in `0 .. EEPROM_SIZE - 1` reads `0xFF`. -/
theorem erase_reads_ff (t : Target) (st : State) (i : Nat) (h : i < EEPROM_SIZE t) :
    eeprom_read_byte (erase t st).eeprom i = 0xff := by
  have h2 : 0 ≤ i ∧ i < 0 + EEPROM_SIZE t := by omega
  simp only [eeprom_read_byte, erase, eraseLoop_eeprom]
  rw [if_pos h2]

/-- Claim C7 on the ATmega168 (512 bytes), at the last address. -/
theorem erase_reads_ff_witness :
    511 < EEPROM_SIZE Target.ATmega168 ∧
    eeprom_read_byte (erase Target.ATmega168 (deviceWith 9 7 63)).eeprom 511 = 0xff :=
  ⟨by decide, erase_reads_ff Target.ATmega168 (deviceWith 9 7 63) 511 (by decide)⟩

theorem restoreLoop_eeprom (n : Nat) :
    ∀ (i : Nat) (st : State),
      (∀ k, k < min st.playback.length n →
        st.playback[k]? = some ((restoreLoop n i st).eeprom (i + k))) ∧
      (∀ a, (a < i ∨ i + min st.playback.length n ≤ a) →
        (restoreLoop n i st).eeprom a = st.eeprom a) := by
  induction n with
  | zero =>
    intro i st
    exact ⟨fun k hk => by omega, fun a _ => rfl⟩
  | succ n ih =>
    intro i st
    cases hp : st.playback with
    | nil =>
      have hn : playbackHasNext st = false := by simp [playbackHasNext, hp]
      refine ⟨fun k hk => ?_, fun a _ => ?_⟩
      · simp at hk
      · simp only [restoreLoop, hn, Bool.false_eq_true, if_false]
    | cons v rest =>
      have hn : playbackHasNext st = true := by simp [playbackHasNext, hp]
      have hstep : restoreLoop (n + 1) i st =
          restoreLoop n (i + 1) (wdt_reset (eeprom_write_byte (playbackNext st).2 i
            (playbackNext st).1)) := by
        simp only [restoreLoop, hn, if_true]
      have hpb : (wdt_reset (eeprom_write_byte (playbackNext st).2 i
          (playbackNext st).1)).playback = rest := by
        simp [wdt_reset, eeprom_write_byte, playbackNext, hp]
      have hee : (wdt_reset (eeprom_write_byte (playbackNext st).2 i
          (playbackNext st).1)).eeprom = eeprom_update st.eeprom i v := by
        simp [wdt_reset, eeprom_write_byte, playbackNext, hp]
      obtain ⟨ih1, ih2⟩ := ih (i + 1)
        (wdt_reset (eeprom_write_byte (playbackNext st).2 i (playbackNext st).1))
      rw [hpb] at ih1 ih2
      rw [hee] at ih2
      rw [hstep]
      have hmin : min (v :: rest).length (n + 1) = min rest.length n + 1 := by
        simp only [List.length_cons]; omega
      refine ⟨fun k hk => ?_, fun a ha => ?_⟩
      · cases k with
        | zero =>
          have h0 := ih2 i (Or.inl (by omega))
          simp [h0, eeprom_update]
        | succ k =>
          have := ih1 k (by omega)
          simp only [List.getElem?_cons_succ]
          rw [this]
          congr 2
          omega
      · rw [ih2 a (by omega)]
        exact eeprom_update_other _ _ _ _ (by omega)

/-- Claim C8: for every device content, of capacity `N = EEPROM_SIZE`, and every source
byte sequence `file` that opens successfully, `restoreFromSDFile` leaves address `i` equal
to `file[i]` for every `i < min |file| N` and leaves every address `i` with
`min |file| N ≤ i < N` at its value before the restore. -/
theorem restore_overwrites_leading_bytes_only (t : Target) (file : List Byte) (filename : List Char)
    (st : State) :
    (∀ i, i < min file.length (EEPROM_SIZE t) →
      file[i]? = some
        ((restoreFromSDFile t SdErrorCode.SD_SUCCESS file filename st).2.eeprom i)) ∧
    (∀ i, min file.length (EEPROM_SIZE t) ≤ i → i < EEPROM_SIZE t →
      (restoreFromSDFile t SdErrorCode.SD_SUCCESS file filename st).2.eeprom i = st.eeprom i) := by
  have h := restoreLoop_eeprom (EEPROM_SIZE t) 0
    (startPlayback SdErrorCode.SD_SUCCESS file (strlcpy_P filename) st).2
  have heq : (restoreFromSDFile t SdErrorCode.SD_SUCCESS file filename st).2.eeprom =
      (restoreLoop (EEPROM_SIZE t) 0
        (startPlayback SdErrorCode.SD_SUCCESS file (strlcpy_P filename) st).2).eeprom := by
    simp [restoreFromSDFile, startPlayback, finishPlayback]
  have hpb : (startPlayback SdErrorCode.SD_SUCCESS file (strlcpy_P filename) st).2.playback
      = file := rfl
  have hst : (startPlayback SdErrorCode.SD_SUCCESS file (strlcpy_P filename) st).2.eeprom
      = st.eeprom := rfl
  rw [hpb] at h
  rw [hst] at h
  rw [heq]
  refine ⟨fun i hi => ?_, fun i hi _ => ?_⟩
  · have := h.1 i hi
    simpa using this
  · exact h.2 i (Or.inr (by omega))

/-- Claim C8 for a three-byte file restored onto a 512-byte device. -/
theorem restore_overwrites_leading_bytes_only_witness :
    (1 : Nat) < min [(10 : Byte), 20, 30].length (EEPROM_SIZE Target.ATmega168) ∧
    min [(10 : Byte), 20, 30].length (EEPROM_SIZE Target.ATmega168) ≤ 5 ∧
    5 < EEPROM_SIZE Target.ATmega168 ∧
    [(10 : Byte), 20, 30][1]? = some
      ((restoreFromSDFile Target.ATmega168 SdErrorCode.SD_SUCCESS [10, 20, 30] ['e', 'e']
        (deviceWith 9 7 63)).2.eeprom 1) ∧
    (restoreFromSDFile Target.ATmega168 SdErrorCode.SD_SUCCESS [10, 20, 30] ['e', 'e']
        (deviceWith 9 7 63)).2.eeprom 5 = (deviceWith 9 7 63).eeprom 5 :=
  have h := restore_overwrites_leading_bytes_only Target.ATmega168 [10, 20, 30] ['e', 'e']
    (deviceWith 9 7 63)
  ⟨by decide, by decide, by decide, h.1 1 (by decide), h.2 5 (by decide) (by decide)⟩

/-- Claim C9: media-open failure is reported and has no effect. If `startCapture` does not
return `SD_SUCCESS`, `saveToSDFile` returns false, the captured bytes are as before and the
only action taken is the `startCapture` call; if `startPlayback` does not return
`SD_SUCCESS`, `restoreFromSDFile` returns false, the device is unchanged and the only
action taken is the `startPlayback` call. Both return true whenever the open succeeds. -/
theorem media_open_failure (t : Target) (status : SdErrorCode) (file : List Byte)
    (filename : List Char) (st : State) :
    (status ≠ SdErrorCode.SD_SUCCESS →
      (saveToSDFile t status filename st).1 = false ∧
      (saveToSDFile t status filename st).2.captured = st.captured ∧
      emitted st (saveToSDFile t status filename st).2
        = [Event.startCapture (strlcpy_P filename)]) ∧
    (status ≠ SdErrorCode.SD_SUCCESS →
      (restoreFromSDFile t status file filename st).1 = false ∧
      (restoreFromSDFile t status file filename st).2.eeprom = st.eeprom ∧
      emitted st (restoreFromSDFile t status file filename st).2
        = [Event.startPlayback (strlcpy_P filename)]) ∧
    (status = SdErrorCode.SD_SUCCESS →
      (saveToSDFile t status filename st).1 = true ∧
      (restoreFromSDFile t status file filename st).1 = true) := by
  cases status with
  | SD_SUCCESS =>
    refine ⟨fun h => absurd rfl h, fun h => absurd rfl h, fun _ => ?_⟩
    simp [saveToSDFile, restoreFromSDFile, startCapture, startPlayback]
  | SD_ERR code =>
    refine ⟨fun _ => ?_, fun _ => ?_, fun h => ?_⟩
    · simp [saveToSDFile, startCapture, emitted]
    · simp [restoreFromSDFile, startPlayback, emitted]
    · cases h

/-- Claim C9 for an open that fails with error code 3. -/
theorem media_open_failure_witness :
    SdErrorCode.SD_ERR 3 ≠ SdErrorCode.SD_SUCCESS ∧
    (saveToSDFile Target.ATmega168 (SdErrorCode.SD_ERR 3) ['e'] blankState).1 = false ∧
    (restoreFromSDFile Target.ATmega168 (SdErrorCode.SD_ERR 3) [1, 2] ['e'] blankState).2.eeprom
      = blankState.eeprom :=
  have h := media_open_failure Target.ATmega168 (SdErrorCode.SD_ERR 3) [1, 2] ['e'] blankState
  ⟨by decide, (h.1 (by decide)).1, (h.2.1 (by decide)).2.1⟩

/-! ## Decoding by the unsigned getters -/

theorem byte_eq_ff_iff (b : Byte) : b = 0xff ↔ b.val = 255 := by
  constructor
  · intro h; rw [h]; rfl
  · intro h; exact Fin.ext h

theorem fieldValue_one (e : Eeprom) (location : Nat) :
    fieldValue e location 1 = (e location).val := by
  simp [fieldValue, List.range_succ]

theorem fieldValue_two (e : Eeprom) (location : Nat) :
    fieldValue e location 2 = (e location).val + 256 * (e (location + 1)).val := by
  simp [fieldValue, List.range_succ]
  omega

theorem fieldValue_four (e : Eeprom) (location : Nat) :
    fieldValue e location 4 = eeprom_read_dword e location := by
  simp [fieldValue, List.range_succ, eeprom_read_dword]
  omega

theorem unwritten_one_iff (e : Eeprom) (location : Nat) :
    Unwritten e location 1 ↔ e location = 0xff := by
  constructor
  · intro h; exact h 0 (by omega)
  · intro h k hk
    have : k = 0 := by omega
    subst this
    exact h

theorem unwritten_two_iff (e : Eeprom) (location : Nat) :
    Unwritten e location 2 ↔ (e location).val + 256 * (e (location + 1)).val = 0xffff := by
  have b0 := (e location).isLt
  have b1 := (e (location + 1)).isLt
  constructor
  · intro h
    have h0 := (byte_eq_ff_iff _).1 (h 0 (by omega))
    have h1 := (byte_eq_ff_iff _).1 (h 1 (by omega))
    simp only [Nat.add_zero] at h0
    omega
  · intro h k hk
    rw [byte_eq_ff_iff]
    have hk2 : k = 0 ∨ k = 1 := by omega
    rcases hk2 with rfl | rfl
    · simp only [Nat.add_zero]; omega
    · omega

theorem unwritten_four_iff (e : Eeprom) (location : Nat) :
    Unwritten e location 4 ↔ eeprom_read_dword e location = 0xffffffff := by
  have b0 := (e location).isLt
  have b1 := (e (location + 1)).isLt
  have b2 := (e (location + 2)).isLt
  have b3 := (e (location + 3)).isLt
  constructor
  · intro h
    exact eeprom_read_dword_unwritten e location h
  · intro h k hk
    rw [byte_eq_ff_iff]
    simp only [eeprom_read_dword] at h
    have hk2 : k = 0 ∨ k = 1 ∨ k = 2 ∨ k = 3 := by omega
    rcases hk2 with rfl | rfl | rfl | rfl
    · simp only [Nat.add_zero]; omega
    · omega
    · omega
    · omega

/-- Claim C11: for each unsigned getter of width 1, 2, 4 bytes (`getEeprom8`,
`getEeprom16`, `getEeprom32`), every location and every default, the getter returns the
default if and only if all bytes of the field are `0xFF` or the decoded value equals the
default; when not all bytes are `0xFF` (in particular when only some are) it returns the
little-endian unsigned integer formed from the bytes, the sum of
`byte[location + k] * 256 ^ k`. -/
theorem unsigned_getters_decode (e : Eeprom) (location : Nat) :
    (∀ d : Byte,
      (getEeprom8 e location d = d ↔
        (Unwritten e location 1 ∨ fieldValue e location 1 = d.val)) ∧
      (¬ Unwritten e location 1 → (getEeprom8 e location d).val = fieldValue e location 1)) ∧
    (∀ d : Nat,
      (getEeprom16 e location d = d ↔
        (Unwritten e location 2 ∨ fieldValue e location 2 = d)) ∧
      (¬ Unwritten e location 2 → getEeprom16 e location d = fieldValue e location 2)) ∧
    (∀ d : Nat,
      (getEeprom32 e location d = d ↔
        (Unwritten e location 4 ∨ fieldValue e location 4 = d)) ∧
      (¬ Unwritten e location 4 → getEeprom32 e location d = fieldValue e location 4)) := by
  refine ⟨fun d => ?_, fun d => ?_, fun d => ?_⟩
  · rw [unwritten_one_iff, fieldValue_one]
    simp only [getEeprom8, eeprom_read_block, List.getD_cons_zero]
    by_cases h : e location = 0xff
    · simp [h]
    · simp only [h, if_false, false_or, not_false_eq_true, true_implies, and_true]
      exact ⟨fun h2 => by rw [h2], fun h2 => Fin.ext h2⟩
  · rw [unwritten_two_iff, fieldValue_two]
    simp only [getEeprom16, eeprom_read_block, List.getD_cons_zero, List.getD_cons_succ]
    by_cases h : (e location).val + 256 * (e (location + 1)).val = 0xffff
    · simp [h]
    · simp [h]
  · rw [unwritten_four_iff, fieldValue_four]
    simp only [getEeprom32]
    by_cases h : eeprom_read_dword e location = 0xffffffff
    · simp [h]
    · simp [h]

/-- Claim C11 on a device whose bytes at addresses 0 and 1 are `0xFF` and 7: the field is
decoded (to 2047 for the 16-bit getter), not defaulted. -/
theorem unsigned_getters_decode_witness :
    ¬ Unwritten (deviceWith 0xff 7 63).eeprom 0 2 ∧
    ¬ Unwritten (deviceWith 0xff 7 63).eeprom 0 4 ∧
    ¬ Unwritten (deviceWith 0xff 7 63).eeprom 1 1 ∧
    getEeprom16 (deviceWith 0xff 7 63).eeprom 0 5 = fieldValue (deviceWith 0xff 7 63).eeprom 0 2 ∧
    getEeprom32 (deviceWith 0xff 7 63).eeprom 0 5 = fieldValue (deviceWith 0xff 7 63).eeprom 0 4 ∧
    (getEeprom8 (deviceWith 0xff 7 63).eeprom 1 5).val
      = fieldValue (deviceWith 0xff 7 63).eeprom 1 1 ∧
    fieldValue (deviceWith 0xff 7 63).eeprom 0 2 = 2047 :=
  have h := unsigned_getters_decode (deviceWith 0xff 7 63).eeprom 0
  have h1 := unsigned_getters_decode (deviceWith 0xff 7 63).eeprom 1
  have n2 : ¬ Unwritten (deviceWith 0xff 7 63).eeprom 0 2 :=
    fun hu => absurd (hu 1 (by decide)) (by decide)
  have n4 : ¬ Unwritten (deviceWith 0xff 7 63).eeprom 0 4 :=
    fun hu => absurd (hu 1 (by decide)) (by decide)
  have n1 : ¬ Unwritten (deviceWith 0xff 7 63).eeprom 1 1 :=
    fun hu => absurd (hu 0 (by decide)) (by decide)
  ⟨n2, n4, n1, (h.2.1 5).2 n2, (h.2.2 5).2 n4, (h1.1 5).2 n1, by decide⟩

/-! ## The sweeps: logs, heartbeat, save and restore -/

theorem range_succ_flatMap {β : Type} (n : Nat) (f : Nat → List β) :
    (List.range (n + 1)).flatMap f = f 0 ++ (List.range n).flatMap (fun k => f (k + 1)) := by
  rw [List.range_succ_eq_map, List.flatMap_cons, List.flatMap_map]

theorem range_succ_map {β : Type} (n : Nat) (f : Nat → β) :
    (List.range (n + 1)).map f = f 0 :: (List.range n).map (fun k => f (k + 1)) := by
  rw [List.range_succ_eq_map, List.map_cons, List.map_map]
  rfl

theorem eraseLoop_log (n : Nat) :
    ∀ (i : Nat) (st : State),
      (eraseLoop n i st).log = st.log ++
        (List.range n).flatMap (fun k => [Event.eeprom_write (i + k) 0xff, Event.wdt_reset]) := by
  induction n with
  | zero => intro i st; simp [eraseLoop]
  | succ n ih =>
    intro i st
    rw [range_succ_flatMap]
    simp only [eraseLoop, ih, wdt_reset, eeprom_write_byte, List.append_assoc, Nat.add_zero,
      List.singleton_append, List.cons_append, List.nil_append]
    simp only [Nat.add_assoc, Nat.add_comm 1]

theorem saveLoop_eeprom (n : Nat) :
    ∀ (i : Nat) (st : State), (saveLoop n i st).eeprom = st.eeprom := by
  induction n with
  | zero => intro i st; rfl
  | succ n ih => intro i st; simp only [saveLoop, ih, wdt_reset, writeByte]

theorem saveLoop_captured (n : Nat) :
    ∀ (i : Nat) (st : State),
      (saveLoop n i st).captured = st.captured ++
        (List.range n).map (fun k => st.eeprom (i + k)) := by
  induction n with
  | zero => intro i st; simp [saveLoop]
  | succ n ih =>
    intro i st
    rw [range_succ_map]
    simp only [saveLoop, ih, wdt_reset, writeByte, eeprom_read_byte, List.append_assoc,
      Nat.add_zero, List.singleton_append]
    simp only [Nat.add_assoc, Nat.add_comm 1]

theorem saveLoop_log (n : Nat) :
    ∀ (i : Nat) (st : State),
      (saveLoop n i st).log = st.log ++
        (List.range n).flatMap (fun k => [Event.writeByte (st.eeprom (i + k)), Event.wdt_reset]) := by
  induction n with
  | zero => intro i st; simp [saveLoop]
  | succ n ih =>
    intro i st
    rw [range_succ_flatMap]
    simp only [saveLoop, ih, wdt_reset, writeByte, eeprom_read_byte, List.append_assoc,
      Nat.add_zero, List.singleton_append, List.cons_append, List.nil_append]
    simp only [Nat.add_assoc, Nat.add_comm 1]

theorem restoreLoop_log (n : Nat) :
    ∀ (i : Nat) (st : State),
      (restoreLoop n i st).log = st.log ++
        (List.range (min st.playback.length n)).flatMap (fun k =>
          [Event.playbackNext, Event.eeprom_write (i + k) (st.playback.getD k 0),
            Event.wdt_reset]) := by
  induction n with
  | zero => intro i st; simp [restoreLoop]
  | succ n ih =>
    intro i st
    cases hp : st.playback with
    | nil =>
      have hn : playbackHasNext st = false := by simp [playbackHasNext, hp]
      simp [restoreLoop, hn]
    | cons v rest =>
      have hn : playbackHasNext st = true := by simp [playbackHasNext, hp]
      have hmin : min (v :: rest).length (n + 1) = min rest.length n + 1 := by
        simp only [List.length_cons]; omega
      rw [hmin, range_succ_flatMap]
      simp only [restoreLoop, hn, if_true, ih, wdt_reset, eeprom_write_byte, playbackNext, hp,
        List.tail_cons, List.headD_cons, List.append_assoc, Nat.add_zero, List.singleton_append,
        List.cons_append, List.nil_append, List.getD_cons_zero, List.getD_cons_succ]
      simp only [Nat.add_assoc, Nat.add_comm 1]

theorem emitted_erase (t : Target) (st : State) :
    emitted st (erase t st) =
      (List.range (EEPROM_SIZE t)).flatMap (fun i =>
        [Event.eeprom_write i 0xff, Event.wdt_reset]) := by
  apply emitted_append
  simp [erase, eraseLoop_log]

theorem emitted_save (t : Target) (filename : List Char) (st : State) :
    emitted st (saveToSDFile t SdErrorCode.SD_SUCCESS filename st).2 =
      [Event.startCapture (strlcpy_P filename)] ++
      (List.range (EEPROM_SIZE t)).flatMap (fun i =>
        [Event.writeByte (st.eeprom i), Event.wdt_reset]) ++
      [Event.finishCapture] := by
  apply emitted_append
  simp [saveToSDFile, startCapture, finishCapture, saveLoop_log]

theorem emitted_restore (t : Target) (file : List Byte) (filename : List Char) (st : State) :
    emitted st (restoreFromSDFile t SdErrorCode.SD_SUCCESS file filename st).2 =
      [Event.startPlayback (strlcpy_P filename)] ++
      (List.range (min file.length (EEPROM_SIZE t))).flatMap (fun i =>
        [Event.playbackNext, Event.eeprom_write i (file.getD i 0), Event.wdt_reset]) ++
      [Event.finishPlayback] := by
  apply emitted_append
  simp [restoreFromSDFile, startPlayback, finishPlayback, restoreLoop_log]

theorem count_flatMap_range (n : Nat) (f : Nat → List Event) (p : Event → Bool) (c : Nat)
    (h : ∀ k, (f k).countP p = c) :
    ((List.range n).flatMap f).countP p = n * c := by
  induction n with
  | zero => simp
  | succ n ih =>
    rw [List.range_succ, List.flatMap_append, List.countP_append, ih]
    simp [h, Nat.succ_mul]

/-- Claim C12: when the open succeeds, `saveToSDFile` returns true, has streamed exactly
`EEPROM_SIZE` bytes to the media, the `i`-th being the device byte at address `i`, in
increasing address order, and closes the capture as its last action; the device content is
unchanged. -/
theorem save_streams_device (t : Target) (filename : List Char) (st : State) :
    (saveToSDFile t SdErrorCode.SD_SUCCESS filename st).1 = true ∧
    (saveToSDFile t SdErrorCode.SD_SUCCESS filename st).2.captured
      = (List.range (EEPROM_SIZE t)).map (fun i => st.eeprom i) ∧
    emitted st (saveToSDFile t SdErrorCode.SD_SUCCESS filename st).2 =
      [Event.startCapture (strlcpy_P filename)] ++
      (List.range (EEPROM_SIZE t)).flatMap (fun i =>
        [Event.writeByte (st.eeprom i), Event.wdt_reset]) ++
      [Event.finishCapture] ∧
    (saveToSDFile t SdErrorCode.SD_SUCCESS filename st).2.eeprom = st.eeprom := by
  refine ⟨?_, ?_, emitted_save t filename st, ?_⟩
  · simp [saveToSDFile, startCapture]
  · simp [saveToSDFile, startCapture, finishCapture, saveLoop_captured]
  · simp [saveToSDFile, startCapture, finishCapture, saveLoop_eeprom]

/-- Claim C13: for every storage content whose Version Record decodes to the compiled
firmware version, `init` returns immediately: it appends nothing to the log (no device
write, no call of `fullResetEEPROM`, `stepperAxisInit` or `eepromResetv7`) and the state,
in particular the storage, is as before. -/
theorem init_current_is_noop (cfg : Config) (ext : Collaborators) (st : State)
    (h : (st.eeprom (cfg.VERSION_LOW + 1)).val * 100 + (st.eeprom cfg.VERSION_LOW).val
      = cfg.firmware_version) :
    emitted st (init cfg ext st) = [] ∧
    (init cfg ext st).eeprom = st.eeprom ∧
    init cfg ext st = st := by
  have h2 := init_of_current cfg ext st h
  rw [h2]
  exact ⟨emitted_self st, rfl, rfl⟩

/-- Claim C13 at the example build on a device that stores version 7.9, with the
Migration Flag unset. -/
theorem init_current_is_noop_witness :
    ((deviceWith 9 7 0xff).eeprom (sampleConfig.VERSION_LOW + 1)).val * 100
      + ((deviceWith 9 7 0xff).eeprom sampleConfig.VERSION_LOW).val
      = sampleConfig.firmware_version ∧
    emitted (deviceWith 9 7 0xff) (init sampleConfig (migrating sampleConfig) (deviceWith 9 7 0xff))
      = [] ∧
    init sampleConfig (migrating sampleConfig) (deviceWith 9 7 0xff) = deviceWith 9 7 0xff :=
  have h := init_current_is_noop sampleConfig (migrating sampleConfig) (deviceWith 9 7 0xff)
    (by decide)
  ⟨by decide, h.1, h.2.2⟩

/-- Claim C16: each sweep services the heartbeat in every iteration that processes a byte.
`erase` performs, for each address in turn, the write followed by `wdt_reset`, so it calls
`wdt_reset` exactly `EEPROM_SIZE` times; a successful `saveToSDFile` does the same for each
byte streamed, `EEPROM_SIZE` calls; a successful `restoreFromSDFile` calls `wdt_reset` once
after each byte written to the device, `min |file| EEPROM_SIZE` calls for as many device
writes. -/
theorem sweeps_service_heartbeat (t : Target) (file : List Byte) (filename : List Char)
    (st : State) :
    (emitted st (erase t st) =
        (List.range (EEPROM_SIZE t)).flatMap (fun i =>
          [Event.eeprom_write i 0xff, Event.wdt_reset]) ∧
      (emitted st (erase t st)).count Event.wdt_reset = EEPROM_SIZE t) ∧
    (emitted st (saveToSDFile t SdErrorCode.SD_SUCCESS filename st).2 =
        [Event.startCapture (strlcpy_P filename)] ++
        (List.range (EEPROM_SIZE t)).flatMap (fun i =>
          [Event.writeByte (st.eeprom i), Event.wdt_reset]) ++
        [Event.finishCapture] ∧
      (emitted st (saveToSDFile t SdErrorCode.SD_SUCCESS filename st).2).count Event.wdt_reset
        = EEPROM_SIZE t) ∧
    (emitted st (restoreFromSDFile t SdErrorCode.SD_SUCCESS file filename st).2 =
        [Event.startPlayback (strlcpy_P filename)] ++
        (List.range (min file.length (EEPROM_SIZE t))).flatMap (fun i =>
          [Event.playbackNext, Event.eeprom_write i (file.getD i 0), Event.wdt_reset]) ++
        [Event.finishPlayback] ∧
      (emitted st (restoreFromSDFile t SdErrorCode.SD_SUCCESS file filename st).2).count
        Event.wdt_reset = min file.length (EEPROM_SIZE t) ∧
      (emitted st (restoreFromSDFile t SdErrorCode.SD_SUCCESS file filename st).2).countP
        Event.isDeviceWrite = min file.length (EEPROM_SIZE t)) := by
  refine ⟨⟨emitted_erase t st, ?_⟩, ⟨emitted_save t filename st, ?_⟩,
    ⟨emitted_restore t file filename st, ?_, ?_⟩⟩
  · rw [emitted_erase, List.count, count_flatMap_range _ _ _ 1 (fun k => by simp [Event.isDeviceWrite])]
    omega
  · rw [emitted_save, List.count, List.countP_append, List.countP_append,
      count_flatMap_range _ _ _ 1 (fun k => by simp [Event.isDeviceWrite])]
    simp
  · rw [emitted_restore, List.count, List.countP_append, List.countP_append,
      count_flatMap_range _ _ _ 1 (fun k => by simp [Event.isDeviceWrite])]
    simp
  · rw [emitted_restore, List.countP_append, List.countP_append,
      count_flatMap_range _ _ _ 1 (fun k => by simp [Event.isDeviceWrite])]
    simp [Event.isDeviceWrite]

theorem restoreFromSDFile_eeprom (t : Target) (file : List Byte) (filename : List Char)
    (st : State) :
    (restoreFromSDFile t SdErrorCode.SD_SUCCESS file filename st).2.eeprom =
      (restoreLoop (EEPROM_SIZE t) 0
        { st with log := st.log ++ [Event.startPlayback (strlcpy_P filename)],
                  playback := file }).eeprom := by
  simp [restoreFromSDFile, startPlayback, finishPlayback]

theorem saveToSDFile_captured (t : Target) (filename : List Char) (st : State) :
    (saveToSDFile t SdErrorCode.SD_SUCCESS filename st).2.captured
      = (List.range (EEPROM_SIZE t)).map (fun i => st.eeprom i) := by
  simp [saveToSDFile, startCapture, finishCapture, saveLoop_captured]

/-- Claim C17: save and restore round trip. If `saveToSDFile` succeeds on a device `st`
and the device is then changed arbitrarily (to `changed`), a successful
`restoreFromSDFile` from the file the save produced leaves the device equal to the content
of `st` at every address `0 .. EEPROM_SIZE - 1`. -/
theorem save_restore_round_trip (t : Target) (saveName restoreName : List Char)
    (st changed : State) (i : Nat) (hi : i < EEPROM_SIZE t) :
    (saveToSDFile t SdErrorCode.SD_SUCCESS saveName st).1 = true ∧
    (restoreFromSDFile t SdErrorCode.SD_SUCCESS
      (saveToSDFile t SdErrorCode.SD_SUCCESS saveName st).2.captured restoreName changed).1
        = true ∧
    (restoreFromSDFile t SdErrorCode.SD_SUCCESS
      (saveToSDFile t SdErrorCode.SD_SUCCESS saveName st).2.captured restoreName changed).2.eeprom i
        = st.eeprom i := by
  refine ⟨by simp [saveToSDFile, startCapture], by simp [restoreFromSDFile, startPlayback], ?_⟩
  rw [saveToSDFile_captured, restoreFromSDFile_eeprom]
  have h := (restoreLoop_eeprom (EEPROM_SIZE t) 0
    { changed with log := changed.log ++ [Event.startPlayback (strlcpy_P restoreName)],
                   playback := (List.range (EEPROM_SIZE t)).map (fun i => st.eeprom i) }).1 i
    (by simp; exact hi)
  simp only [Nat.zero_add] at h
  have h2 : ((List.range (EEPROM_SIZE t)).map (fun i => st.eeprom i))[i]? = some (st.eeprom i) := by
    simp [hi]
  rw [h2] at h
  exact (Option.some.inj h).symm

/-- Claim C17 on the ATmega168: a device saved, then blanked, then restored. -/
theorem save_restore_round_trip_witness :
    1 < EEPROM_SIZE Target.ATmega168 ∧
    (restoreFromSDFile Target.ATmega168 SdErrorCode.SD_SUCCESS
      (saveToSDFile Target.ATmega168 SdErrorCode.SD_SUCCESS ['a'] (deviceWith 9 7 63)).2.captured
      ['a'] blankState).2.eeprom 1 = (deviceWith 9 7 63).eeprom 1 :=
  ⟨by decide, (save_restore_round_trip Target.ATmega168 ['a'] ['a'] (deviceWith 9 7 63)
    blankState 1 (by decide)).2.2⟩

theorem eeprom_write_block_below (data : List Byte) :
    ∀ (dst : Nat) (st : State) (a : Nat), a < dst →
      (eeprom_write_block st data dst).eeprom a = st.eeprom a := by
  induction data with
  | nil => intro dst st a _; rfl
  | cons b bs ih =>
    intro dst st a ha
    simp only [eeprom_write_block]
    rw [ih (dst + 1) _ a (by omega)]
    simp only [eeprom_write_byte]
    exact eeprom_update_other _ _ _ _ (by omega)

theorem eeprom_read_block_write_block (data : List Byte) :
    ∀ (dst : Nat) (st : State),
      eeprom_read_block (eeprom_write_block st data dst).eeprom dst data.length = data := by
  induction data with
  | nil => intro dst st; rfl
  | cons b bs ih =>
    intro dst st
    simp only [eeprom_write_block, List.length_cons, eeprom_read_block, ih]
    rw [eeprom_write_block_below bs (dst + 1) _ dst (by omega)]
    simp [eeprom_write_byte, eeprom_update]

theorem int64Bytes_eq (v : Int) :
    int64Bytes v = [toUint8 v, toUint8 (v / 256), toUint8 (v / 65536), toUint8 (v / 16777216),
      toUint8 (v / 4294967296), toUint8 (v / 1099511627776), toUint8 (v / 281474976710656),
      toUint8 (v / 72057594037927936)] := by
  simp [int64Bytes, List.range_succ]

theorem toUint8_eq_ff_iff (z : Int) : toUint8 z = 0xff ↔ z % 256 = 255 := by
  rw [byte_eq_ff_iff]
  simp only [toUint8]
  omega

theorem toUint8_val (z : Int) : ((toUint8 z).val : Int) = z % 256 := by
  simp only [toUint8]
  omega

theorem littleEndian_int64Bytes (v : Int) :
    ((littleEndian (int64Bytes v) : Nat) : Int) = v % 18446744073709551616 := by
  rw [int64Bytes_eq]
  simp only [littleEndian]
  push_cast
  simp only [toUint8_val]
  omega

/-- Claim C18: 64-bit round trip with sentinel collision. For every location, every
default `d` and every `int64_t` value `v`, `setEepromInt64 location v` followed by
`getEepromInt64 location d` returns `v` when `v ≠ -1`, and returns `d` when `v = -1`, the
value whose eight bytes are all `0xFF`. -/
theorem int64_round_trip (st : State) (location : Nat) (d v : Int)
    (hlow : -2 ^ 63 ≤ v) (hhigh : v < 2 ^ 63) :
    (v ≠ -1 → getEepromInt64 (setEepromInt64 st location v).eeprom location d = v) ∧
    (v = -1 → getEepromInt64 (setEepromInt64 st location v).eeprom location d = d) := by
  have hlen : (int64Bytes v).length = 8 := by simp [int64Bytes]
  have hread : eeprom_read_block (setEepromInt64 st location v).eeprom location 8
      = int64Bytes v := by
    have h := eeprom_read_block_write_block (int64Bytes v) location st
    rw [hlen] at h
    exact h
  have hle := littleEndian_int64Bytes v
  norm_num at hlow hhigh
  constructor
  · intro hv
    simp only [getEepromInt64, hread]
    have hnot : ¬ ((int64Bytes v).getD 0 0 = 0xff ∧ (int64Bytes v).getD 1 0 = 0xff ∧
        (int64Bytes v).getD 2 0 = 0xff ∧ (int64Bytes v).getD 3 0 = 0xff ∧
        (int64Bytes v).getD 4 0 = 0xff ∧ (int64Bytes v).getD 5 0 = 0xff ∧
        (int64Bytes v).getD 6 0 = 0xff ∧ (int64Bytes v).getD 7 0 = 0xff) := by
      rw [int64Bytes_eq]
      simp only [List.getD_cons_zero, List.getD_cons_succ, toUint8_eq_ff_iff]
      omega
    rw [if_neg hnot]
    simp only [toInt64]
    norm_num
    split_ifs <;> omega
  · intro hv
    subst hv
    simp only [getEepromInt64, hread]
    rw [if_pos]
    rw [int64Bytes_eq]
    simp only [List.getD_cons_zero, List.getD_cons_succ, toUint8_eq_ff_iff]
    decide

/-- Claim C18 for the values -123456789 and -1 written at location 8. -/
theorem int64_round_trip_witness :
    -(2 : Int) ^ 63 ≤ -123456789 ∧ (-123456789 : Int) < 2 ^ 63 ∧ (-123456789 : Int) ≠ -1 ∧
    getEepromInt64 (setEepromInt64 blankState 8 (-123456789)).eeprom 8 0 = -123456789 ∧
    getEepromInt64 (setEepromInt64 blankState 8 (-1)).eeprom 8 42 = 42 :=
  ⟨by decide, by decide, by decide,
    (int64_round_trip blankState 8 0 (-123456789) (by decide) (by decide)).1 (by decide),
    (int64_round_trip blankState 8 42 (-1) (by decide) (by decide)).2 rfl⟩

/-! ## Fixed-point writes -/

theorem truncate_of_nonneg (q : ℚ) (h : 0 ≤ q) : truncate q = ⌊q⌋ := by
  simp only [truncate, h, if_true]

theorem toUint8_of_range (z : Int) (h0 : 0 ≤ z) (h1 : z < 256) : ((toUint8 z).val : Int) = z := by
  rw [toUint8_val]
  omega

theorem floor_scaled (v : ℚ) : ⌊v * 256⌋ = ⌊v⌋ * 256 + ⌊(v - (⌊v⌋ : ℚ)) * 256⌋ := by
  have h : v * 256 = ((⌊v⌋ * 256 : Int) : ℚ) + (v - (⌊v⌋ : ℚ)) * 256 := by
    push_cast
    ring
  rw [h, Int.floor_int_add]

/-- Claim C19: fixed-point writes truncate to a resolution of 1/256. For every rational
`v` with `0 ≤ v < 256`, `setEepromFixed16 location v` stores the integer byte `⌊v⌋` and the
fractional byte `⌊(v - ⌊v⌋) * 256⌋`; both bytes are `0xFF` exactly when
`v ≥ 255 + 255/256`, and then `getEepromFixed16 location d` returns `d`; otherwise it
returns `⌊v * 256⌋ / 256`, which is the greatest multiple of 1/256 not exceeding `v` and is
within 1/256 of `v`. -/
theorem fixed16_write_truncates (st : State) (location : Nat) (d v : ℚ)
    (h0 : 0 ≤ v) (h1 : v < 256) :
    (((setEepromFixed16 st location v).eeprom location).val : Int) = ⌊v⌋ ∧
    (((setEepromFixed16 st location v).eeprom (location + 1)).val : Int)
      = ⌊(v - (⌊v⌋ : ℚ)) * 256⌋ ∧
    (((setEepromFixed16 st location v).eeprom location = 0xff ∧
        (setEepromFixed16 st location v).eeprom (location + 1) = 0xff) ↔
      255 + 255 / 256 ≤ v) ∧
    (v < 255 + 255 / 256 →
      getEepromFixed16 (setEepromFixed16 st location v).eeprom location d
        = (⌊v * 256⌋ : ℚ) / 256) ∧
    (255 + 255 / 256 ≤ v →
      getEepromFixed16 (setEepromFixed16 st location v).eeprom location d = d) ∧
    ((⌊v * 256⌋ : ℚ) / 256 ≤ v ∧ v < (⌊v * 256⌋ : ℚ) / 256 + 1 / 256) ∧
    (∀ k : Int, (k : ℚ) / 256 ≤ v → (k : ℚ) / 256 ≤ (⌊v * 256⌋ : ℚ) / 256) := by
  -- the integer part
  have hn0 : 0 ≤ ⌊v⌋ := Int.floor_nonneg.2 h0
  have hn1 : ⌊v⌋ < 256 := Int.floor_lt.2 (by exact_mod_cast h1)
  have hnle : ((⌊v⌋ : Int) : ℚ) ≤ v := Int.floor_le v
  have hnlt : v < ((⌊v⌋ : Int) : ℚ) + 1 := Int.lt_floor_add_one v
  have hd0 : ((toUint8 (truncate v)).val : Int) = ⌊v⌋ := by
    rw [truncate_of_nonneg v h0]
    exact toUint8_of_range _ hn0 hn1
  have hd0q : (((toUint8 (truncate v)).val : Nat) : ℚ) = ((⌊v⌋ : Int) : ℚ) := by
    exact_mod_cast congrArg (fun z : Int => (z : ℚ)) hd0
  -- the fractional part
  have hw0 : 0 ≤ (v - ((⌊v⌋ : Int) : ℚ)) * 256 := by nlinarith
  have hw1 : (v - ((⌊v⌋ : Int) : ℚ)) * 256 < 256 := by nlinarith
  have hm0 : 0 ≤ ⌊(v - ((⌊v⌋ : Int) : ℚ)) * 256⌋ := Int.floor_nonneg.2 hw0
  have hm1 : ⌊(v - ((⌊v⌋ : Int) : ℚ)) * 256⌋ < 256 := Int.floor_lt.2 (by exact_mod_cast hw1)
  have hd1 : ((toUint8 (truncate ((v - (((toUint8 (truncate v)).val : Nat) : ℚ)) * 256))).val : Int)
      = ⌊(v - ((⌊v⌋ : Int) : ℚ)) * 256⌋ := by
    rw [hd0q, truncate_of_nonneg _ hw0]
    exact toUint8_of_range _ hm0 hm1
  have hne : location ≠ location + 1 := by omega
  have he0 : (setEepromFixed16 st location v).eeprom location = toUint8 (truncate v) := by
    simp only [setEepromFixed16, eeprom_write_block, eeprom_write_byte,
      eeprom_update_other _ _ _ _ hne, eeprom_update_same]
  have he1 : (setEepromFixed16 st location v).eeprom (location + 1)
      = toUint8 (truncate ((v - (((toUint8 (truncate v)).val : Nat) : ℚ)) * 256)) := by
    simp only [setEepromFixed16, eeprom_write_block, eeprom_write_byte, eeprom_update_same]
  have hfl := floor_scaled v
  have hmle : ((⌊(v - ((⌊v⌋ : Int) : ℚ)) * 256⌋ : Int) : ℚ) ≤ (v - ((⌊v⌋ : Int) : ℚ)) * 256 :=
    Int.floor_le _
  have hmlt : (v - ((⌊v⌋ : Int) : ℚ)) * 256
      < ((⌊(v - ((⌊v⌋ : Int) : ℚ)) * 256⌋ : Int) : ℚ) + 1 := Int.lt_floor_add_one _
  have hboth : ((setEepromFixed16 st location v).eeprom location = 0xff ∧
        (setEepromFixed16 st location v).eeprom (location + 1) = 0xff) ↔
      255 + 255 / 256 ≤ v := by
    rw [he0, he1, byte_eq_ff_iff, byte_eq_ff_iff]
    constructor
    · rintro ⟨ha, hb⟩
      have ha2 : ⌊v⌋ = 255 := by rw [← hd0]; exact_mod_cast ha
      have hb2 : ⌊(v - ((⌊v⌋ : Int) : ℚ)) * 256⌋ = 255 := by rw [← hd1]; exact_mod_cast hb
      rw [hb2] at hmle
      rw [ha2] at hmle
      push_cast at hmle
      linarith
    · intro hv
      have ha2 : ⌊v⌋ = 255 := by
        rw [Int.floor_eq_iff]
        constructor
        · push_cast; linarith
        · push_cast; linarith
      have hb2 : ⌊(v - ((⌊v⌋ : Int) : ℚ)) * 256⌋ = 255 := by
        rw [ha2, Int.floor_eq_iff]
        constructor
        · push_cast; linarith
        · push_cast; linarith
      constructor
      · have := hd0
        rw [ha2] at this
        exact_mod_cast this
      · have := hd1
        rw [hb2] at this
        exact_mod_cast this
  have hget : ∀ hq : ¬ ((setEepromFixed16 st location v).eeprom location = 0xff ∧
        (setEepromFixed16 st location v).eeprom (location + 1) = 0xff),
      getEepromFixed16 (setEepromFixed16 st location v).eeprom location d
        = (⌊v * 256⌋ : ℚ) / 256 := by
    intro hq
    simp only [getEepromFixed16, eeprom_read_block, List.getD_cons_zero, List.getD_cons_succ]
    rw [if_neg hq, he0, he1, hfl]
    have e0 : (((toUint8 (truncate v)).val : Nat) : ℚ) = ((⌊v⌋ : Int) : ℚ) := hd0q
    have e1 : (((toUint8 (truncate ((v - (((toUint8 (truncate v)).val : Nat) : ℚ)) * 256))).val
        : Nat) : ℚ) = ((⌊(v - ((⌊v⌋ : Int) : ℚ)) * 256⌋ : Int) : ℚ) := by
      exact_mod_cast congrArg (fun z : Int => (z : ℚ)) hd1
    rw [e1, e0]
    push_cast
    ring
  refine ⟨?_, ?_, hboth, ?_, ?_, ⟨?_, ?_⟩, ?_⟩
  · rw [he0]; exact hd0
  · rw [he1]; exact hd1
  · intro hv
    exact hget (fun hq => absurd (hboth.1 hq) (not_le.2 hv))
  · intro hv
    simp only [getEepromFixed16, eeprom_read_block, List.getD_cons_zero, List.getD_cons_succ]
    rw [if_pos (hboth.2 hv)]
  · have := Int.floor_le (v * 256)
    linarith
  · have := Int.lt_floor_add_one (v * 256)
    linarith
  · intro k hk
    have hk2 : (k : ℚ) ≤ v * 256 := by linarith
    have hk3 : k ≤ ⌊v * 256⌋ := Int.le_floor.2 hk2
    have hk4 : (k : ℚ) ≤ ((⌊v * 256⌋ : Int) : ℚ) := by exact_mod_cast hk3
    linarith

/-- Claim C19 for the value 7.9 written at location 16. -/
theorem fixed16_write_truncates_witness :
    (0 : ℚ) ≤ 79 / 10 ∧ (79 / 10 : ℚ) < 256 ∧ (79 / 10 : ℚ) < 255 + 255 / 256 ∧
    getEepromFixed16 (setEepromFixed16 blankState 16 (79 / 10)).eeprom 16 0
      = (⌊(79 / 10 : ℚ) * 256⌋ : ℚ) / 256 :=
  ⟨by norm_num, by norm_num, by norm_num,
    (fixed16_write_truncates blankState 16 0 (79 / 10) (by norm_num) (by norm_num)).2.2.2.1
      (by norm_num)⟩

/-! ## The actions of `init` on a version mismatch -/

theorem toUint8_val_nat (n : Nat) : (toUint8 (n : Int)).val = n % 256 := by
  simp only [toUint8]
  omega

theorem initTail_eeprom (cfg : Config) (ext : Collaborators) (st1 : State) :
    ((if flagUnset cfg (versionWritten cfg st1.eeprom) then [Event.eepromResetv7] else []) = [] ∧
      (initTail cfg ext st1).eeprom = versionWritten cfg st1.eeprom) ∨
    ((if flagUnset cfg (versionWritten cfg st1.eeprom) then [Event.eepromResetv7] else [])
        = [Event.eepromResetv7] ∧
      (initTail cfg ext st1).eeprom = ext.eepromResetv7 (versionWritten cfg st1.eeprom)) := by
  by_cases h : flagUnset cfg (versionWritten cfg st1.eeprom)
  · right
    simp only [initTail, h, if_true, and_self]
  · left
    simp only [initTail, h, if_false, and_self]

/-- Claim C15, amended: for every stored Version Record `(low, high)` whose decoded value
`high * 100 + low` differs from the compiled firmware version, `init` invokes
`fullResetEEPROM` followed by `stepperAxisInit(true)` if and only if `high == 0xFF` or
`high < 2`; in both cases it then writes `low = firmware_version % 100` and
`high = (firmware_version / 100) mod 256`, which is `firmware_version / 100` whenever
`firmware_version < 25600`, to the Version Record. The device after `init` is the device
after the optional reset with these two bytes written, passed through the migration
routine when that is called; so the record holds the two bytes whenever the migration
routine does not write it. -/
theorem init_mismatch_actions (cfg : Config) (ext : Collaborators) (st : State)
    (hne : (st.eeprom (cfg.VERSION_LOW + 1)).val * 100 + (st.eeprom cfg.VERSION_LOW).val
      ≠ cfg.firmware_version) :
    (Event.fullResetEEPROM ∈ emitted st (init cfg ext st) ↔
      (st.eeprom (cfg.VERSION_LOW + 1) = 0xff ∨ (st.eeprom (cfg.VERSION_LOW + 1)).val < 2)) ∧
    ∃ (low high : Byte) (migration : List Event) (afterReset written : Eeprom),
      low.val = cfg.firmware_version % 100 ∧
      high.val = (cfg.firmware_version / 100) % 256 ∧
      (cfg.firmware_version < 25600 → high.val = cfg.firmware_version / 100) ∧
      afterReset =
        (if st.eeprom (cfg.VERSION_LOW + 1) = 0xff ∨ (st.eeprom (cfg.VERSION_LOW + 1)).val < 2
          then ext.stepperAxisInit true (ext.fullResetEEPROM st.eeprom) else st.eeprom) ∧
      written = eeprom_update (eeprom_update afterReset cfg.VERSION_LOW low)
        (cfg.VERSION_LOW + 1) high ∧
      written cfg.VERSION_LOW = low ∧ written (cfg.VERSION_LOW + 1) = high ∧
      emitted st (init cfg ext st) =
        (if st.eeprom (cfg.VERSION_LOW + 1) = 0xff ∨ (st.eeprom (cfg.VERSION_LOW + 1)).val < 2
          then [Event.fullResetEEPROM, Event.stepperAxisInit true] else []) ++
        [Event.eeprom_write cfg.VERSION_LOW low, Event.eeprom_write (cfg.VERSION_LOW + 1) high]
        ++ migration ∧
      ((migration = [] ∧ (init cfg ext st).eeprom = written) ∨
        (migration = [Event.eepromResetv7] ∧
          (init cfg ext st).eeprom = ext.eepromResetv7 written)) ∧
      (KeepsVersionRecord cfg ext.eepromResetv7 →
        (init cfg ext st).eeprom cfg.VERSION_LOW = low ∧
        (init cfg ext st).eeprom (cfg.VERSION_LOW + 1) = high) := by
  have hne2 : storedVersion cfg st.eeprom ≠ cfg.firmware_version := hne
  have h1 : (toUint8 (cfg.firmware_version % 100 : Nat)).val = cfg.firmware_version % 100 :=
    toUint8_val_of_lt _ (by omega)
  have h2 : (toUint8 (cfg.firmware_version / 100 : Nat)).val
      = (cfg.firmware_version / 100) % 256 := toUint8_val_nat _
  have h3 : cfg.firmware_version < 25600 →
      (toUint8 (cfg.firmware_version / 100 : Nat)).val = cfg.firmware_version / 100 :=
    fun hfv => toUint8_val_of_lt _ (by omega)
  have hd : cfg.VERSION_LOW ≠ cfg.VERSION_LOW + 1 := by omega
  have hw0 : ∀ e : Eeprom, versionWritten cfg e cfg.VERSION_LOW
      = toUint8 (cfg.firmware_version % 100 : Nat) := fun e => by
    simp only [versionWritten, eeprom_update_other _ _ _ _ hd, eeprom_update_same]
  have hw1 : ∀ e : Eeprom, versionWritten cfg e (cfg.VERSION_LOW + 1)
      = toUint8 (cfg.firmware_version / 100 : Nat) := fun e => by
    simp only [versionWritten, eeprom_update_same]
  have hkeep : ∀ (e : Eeprom) (st2 : State),
      ((if flagUnset cfg (versionWritten cfg e) then [Event.eepromResetv7] else []) = [] ∧
          st2.eeprom = versionWritten cfg e) ∨
        ((if flagUnset cfg (versionWritten cfg e) then [Event.eepromResetv7] else [])
            = [Event.eepromResetv7] ∧ st2.eeprom = ext.eepromResetv7 (versionWritten cfg e)) →
      KeepsVersionRecord cfg ext.eepromResetv7 →
      st2.eeprom cfg.VERSION_LOW = toUint8 (cfg.firmware_version % 100 : Nat) ∧
      st2.eeprom (cfg.VERSION_LOW + 1) = toUint8 (cfg.firmware_version / 100 : Nat) := by
    intro e st2 hcase hk
    rcases hcase with ⟨_, he⟩ | ⟨_, he⟩
    · rw [he]; exact ⟨hw0 e, hw1 e⟩
    · rw [he, (hk _).1, (hk _).2]; exact ⟨hw0 e, hw1 e⟩
  by_cases hr : st.eeprom (cfg.VERSION_LOW + 1) = 0xff ∨ (st.eeprom (cfg.VERSION_LOW + 1)).val < 2
  · have hem := emitted_init_reset cfg ext st hne2 hr
    have hst := init_of_reset cfg ext st hne2 hr
    have hee := initTail_eeprom cfg ext
      (call (call st Event.fullResetEEPROM ext.fullResetEEPROM)
        (Event.stepperAxisInit true) (ext.stepperAxisInit true))
    rw [← hst] at hee
    refine ⟨?_, toUint8 (cfg.firmware_version % 100 : Nat),
      toUint8 (cfg.firmware_version / 100 : Nat),
      (if flagUnset cfg (versionWritten cfg
          (ext.stepperAxisInit true (ext.fullResetEEPROM st.eeprom)))
        then [Event.eepromResetv7] else []),
      ext.stepperAxisInit true (ext.fullResetEEPROM st.eeprom),
      versionWritten cfg (ext.stepperAxisInit true (ext.fullResetEEPROM st.eeprom)),
      h1, h2, h3, ?_, rfl, hw0 _, hw1 _, ?_, hee, hkeep _ _ hee⟩
    · rw [hem]; simp [hr]
    · rw [if_pos hr]
    · rw [hem, if_pos hr]
      simp
  · have hem := emitted_init_stale cfg ext st hne2 hr
    have hst := init_of_stale cfg ext st hne2 hr
    have hee := initTail_eeprom cfg ext st
    rw [← hst] at hee
    refine ⟨?_, toUint8 (cfg.firmware_version % 100 : Nat),
      toUint8 (cfg.firmware_version / 100 : Nat),
      (if flagUnset cfg (versionWritten cfg st.eeprom) then [Event.eepromResetv7] else []),
      st.eeprom, versionWritten cfg st.eeprom,
      h1, h2, h3, ?_, rfl, hw0 _, hw1 _, ?_, hee, hkeep _ _ hee⟩
    · rw [hem]
      constructor
      · intro hmem
        split_ifs at hmem <;> simp at hmem
      · intro h; exact absurd h hr
    · rw [if_neg hr]
    · rw [hem, if_neg hr]
      simp

/-- Claim C15, amended, at the example build on a device that stores version 7.5 with the
Migration Flag set: no reset, and the record holds `(9, 7)` afterwards. -/
theorem init_mismatch_actions_witness :
    ((deviceWith 5 7 63).eeprom (sampleConfig.VERSION_LOW + 1)).val * 100
      + ((deviceWith 5 7 63).eeprom sampleConfig.VERSION_LOW).val
      ≠ sampleConfig.firmware_version ∧
    (Event.fullResetEEPROM ∈ emitted (deviceWith 5 7 63)
        (init sampleConfig (migrating sampleConfig) (deviceWith 5 7 63)) ↔
      ((deviceWith 5 7 63).eeprom (sampleConfig.VERSION_LOW + 1) = 0xff ∨
        ((deviceWith 5 7 63).eeprom (sampleConfig.VERSION_LOW + 1)).val < 2)) ∧
    (∃ (low high : Byte), low.val = sampleConfig.firmware_version % 100 ∧
      high.val = sampleConfig.firmware_version / 100 ∧
      (init sampleConfig (migrating sampleConfig) (deviceWith 5 7 63)).eeprom
        sampleConfig.VERSION_LOW = low ∧
      (init sampleConfig (migrating sampleConfig) (deviceWith 5 7 63)).eeprom
        (sampleConfig.VERSION_LOW + 1) = high) ∧
    emitted (deviceWith 5 7 63) (init sampleConfig (migrating sampleConfig) (deviceWith 5 7 63))
      = [Event.eeprom_write 0 9, Event.eeprom_write 1 7] :=
  have h := init_mismatch_actions sampleConfig (migrating sampleConfig) (deviceWith 5 7 63)
    (by decide)
  ⟨by decide, h.1,
    (match h.2 with
      | ⟨low, high, _, _, _, hl, _, hh, _, _, _, _, _, _, hk⟩ =>
        ⟨low, high, hl, hh (by decide), (hk (fun _ => ⟨rfl, rfl⟩)).1,
          (hk (fun _ => ⟨rfl, rfl⟩)).2⟩),
    by decide⟩

/-- Claim C15 as stated fails for `firmware_version = 25600`: on a device that stores
version 7.5 the versions differ, and `init` writes the high byte 0 at `VERSION_LOW + 1`,
while `firmware_version / 100` is 256; here 0 is `256 mod 256`. -/
theorem init_writes_narrowed_high_byte :
    storedVersion wideConfig (deviceWith 5 7 63).eeprom ≠ wideConfig.firmware_version ∧
    wideConfig.firmware_version / 100 = 256 ∧
    emitted (deviceWith 5 7 63) (init wideConfig idle (deviceWith 5 7 63))
      = [Event.eeprom_write 0 0, Event.eeprom_write 1 0] ∧
    ((init wideConfig idle (deviceWith 5 7 63)).eeprom (wideConfig.VERSION_LOW + 1)).val = 0 ∧
    ((init wideConfig idle (deviceWith 5 7 63)).eeprom (wideConfig.VERSION_LOW + 1)).val
      ≠ wideConfig.firmware_version / 100 := by
  decide

end eeprom
